import Mathlib

/-!
# Shortcut service of the v2 API (api/v2/shortcut_service.go)

A shallow embedding of the five request handlers (ListShortcuts, GetShortcut,
CreateShortcut, UpdateShortcut, DeleteShortcut) and of the two helpers
(createShortcutCreateActivity, convertShortcutFromStorepb).

* Go pointers that may be nil are Option values; dereferencing nil is the
  outcome Result.panicked.
* int32 and int64 values are Int (no arithmetic is performed on them).
* The store collaborator is an explicit interface over a state type; every
  handler threads the store state through the calls it makes, in source order.
-/

/-! ## Messages of the storage layer (package storepb) -/

namespace storepb

/-- Visibility enumeration of the storage messages, an int32 in Go. The generated
declarations are not part of the reviewed file; the numbering is the proto one
and only the distinctness of the named values is used. -/
abbrev Visibility := Int

def Visibility_VISIBILITY_UNSPECIFIED : Visibility := 0
def Visibility_PRIVATE : Visibility := 1
def Visibility_WORKSPACE : Visibility := 2
def Visibility_PUBLIC : Visibility := 3

/-- Row status enumeration of the storage messages, an int32 in Go. -/
abbrev RowStatus := Int

def RowStatus_ROW_STATUS_UNSPECIFIED : RowStatus := 0
def RowStatus_NORMAL : RowStatus := 1
def RowStatus_ARCHIVED : RowStatus := 2

structure OpenGraphMetadata where
  Title : String
  Description : String
  Image : String
deriving DecidableEq, Repr

/-- Storage record of a shortcut. OgMetadata is a pointer in Go: none is nil. -/
structure Shortcut where
  Id : Int
  CreatorId : Int
  CreatedTs : Int
  UpdatedTs : Int
  RowStatus : RowStatus
  Name : String
  Link : String
  Title : String
  Tags : List String
  Description : String
  Visibility : Visibility
  OgMetadata : Option OpenGraphMetadata
deriving DecidableEq, Repr

structure ActivityShorcutCreatePayload where
  ShortcutId : Int
deriving DecidableEq, Repr

end storepb

/-! ## Messages of the wire layer (package apiv2pb) -/

namespace apiv2pb

abbrev Visibility := Int

def Visibility_VISIBILITY_UNSPECIFIED : Visibility := 0
def Visibility_PRIVATE : Visibility := 1
def Visibility_WORKSPACE : Visibility := 2
def Visibility_PUBLIC : Visibility := 3

abbrev RowStatus := Int

structure OpenGraphMetadata where
  Title : String
  Description : String
  Image : String
deriving DecidableEq, Repr

/-- Wire record of a shortcut. OgMetadata is a pointer in Go: none is nil. -/
structure Shortcut where
  Id : Int
  CreatorId : Int
  CreatedTs : Int
  UpdatedTs : Int
  RowStatus : RowStatus
  Name : String
  Link : String
  Title : String
  Tags : List String
  Description : String
  Visibility : Visibility
  OgMetadata : Option OpenGraphMetadata
deriving DecidableEq, Repr

/-- Field mask of an update request: the list of field paths. -/
structure FieldMask where
  Paths : List String
deriving DecidableEq, Repr

structure ListShortcutsRequest where
deriving DecidableEq, Repr

structure ListShortcutsResponse where
  Shortcuts : List Shortcut
deriving DecidableEq, Repr

structure GetShortcutRequest where
  Name : String
deriving DecidableEq, Repr

structure GetShortcutResponse where
  Shortcut : Shortcut
deriving DecidableEq, Repr

/-- Create request; the Shortcut field is a pointer in Go: none is nil. -/
structure CreateShortcutRequest where
  Shortcut : Option Shortcut
deriving DecidableEq, Repr

structure CreateShortcutResponse where
  Shortcut : Shortcut
deriving DecidableEq, Repr

/-- Update request; both fields are pointers in Go: none is nil. -/
structure UpdateShortcutRequest where
  Shortcut : Option Shortcut
  UpdateMask : Option FieldMask
deriving DecidableEq, Repr

structure UpdateShortcutResponse where
  Shortcut : Shortcut
deriving DecidableEq, Repr

structure DeleteShortcutRequest where
  Name : String
deriving DecidableEq, Repr

structure DeleteShortcutResponse where
deriving DecidableEq, Repr

end apiv2pb

/-! ## Types of the store package used by the handlers -/

namespace store

/-- Modelled from the spec: the store package is not part of the reviewed file.
Visibility of the store layer, the re-encoded enumeration value. -/
abbrev Visibility := Int

def VisibilityPrivate : Visibility := 1
def VisibilityWorkspace : Visibility := 2
def VisibilityPublic : Visibility := 3

/-- Modelled from the spec: role of a user, ADMIN or USER. -/
inductive Role where
  | RoleAdmin
  | RoleUser
deriving DecidableEq, Repr

export Role (RoleAdmin RoleUser)

/-- Modelled from the spec: the user record, read-only for the handlers. -/
structure User where
  ID : Int
  Role : Role
deriving DecidableEq, Repr

/-- Modelled from the spec: user filter, carrying the fields the handlers set. -/
structure FindUser where
  ID : Option Int := none
deriving DecidableEq, Repr

/-- Modelled from the spec: shortcut filter, carrying the fields the handlers set.
The zero value has every field unset. -/
structure FindShortcut where
  CreatorID : Option Int := none
  Name : Option String := none
  VisibilityList : List Visibility := []
deriving DecidableEq, Repr

structure OpenGraphMetadata where
  Title : String
  Description : String
  Image : String
deriving DecidableEq, Repr

/-- Modelled from the spec: the sparse update instruction. ID is the target of the
update, zero when never assigned; an absent field means do not change. -/
structure UpdateShortcut where
  ID : Int := 0
  Link : Option String := none
  Title : Option String := none
  Description : Option String := none
  Visibility : Option Visibility := none
  Tag : Option String := none
  OpenGraphMetadata : Option OpenGraphMetadata := none
deriving DecidableEq, Repr

/-- Modelled from the spec: the delete instruction, by id. -/
structure DeleteShortcut where
  ID : Int
deriving DecidableEq, Repr

/-- Modelled from the spec: activity type and level are named constants. -/
abbrev ActivityType := String

abbrev ActivityLevel := String

def ActivityShortcutCreate : ActivityType := "shortcut.create"

def ActivityInfo : ActivityLevel := "INFO"

/-- Modelled from the spec: the audit record. ID and CreatedTs are assigned by the
store; the handlers leave them at the zero value. -/
structure Activity where
  ID : Int := 0
  CreatedTs : Int := 0
  CreatorID : Int
  Typ : ActivityType
  Level : ActivityLevel
  Payload : String
deriving DecidableEq, Repr

end store

/-- Modelled from the spec: the storage collaborator contract consumed by the
handlers. Every operation takes the store state and returns its answer (an error
string on failure) together with the next state. GetShortcut may answer with no
record (nil, nil). -/
structure Store (σ : Type) where
  ListShortcuts : σ → store.FindShortcut → Except String (List storepb.Shortcut) × σ
  GetShortcut : σ → store.FindShortcut → Except String (Option storepb.Shortcut) × σ
  CreateShortcut : σ → storepb.Shortcut → Except String storepb.Shortcut × σ
  UpdateShortcut : σ → store.UpdateShortcut → Except String storepb.Shortcut × σ
  DeleteShortcut : σ → store.DeleteShortcut → Except String Unit × σ
  GetUser : σ → store.FindUser → Except String store.User × σ
  CreateActivity : σ → store.Activity → Except String store.Activity × σ

/-! ## Outcomes of a handler -/

/-- Status codes of package codes used by the handlers. -/
inductive codes where
  | InvalidArgument
  | NotFound
  | PermissionDenied
  | Internal
deriving DecidableEq, Repr

/-- Outcome of a handler: a response with a nil error, a nil response with a status
error (code and formatted message), or a runtime panic (nil dereference, failed
type assertion). -/
inductive Result (α : Type) where
  | ok (response : α)
  | status (code : codes) (msg : String)
  | panicked
deriving DecidableEq, Repr

/-- Request-scoped context: the int32 stored under userIDContextKey, if any. -/
structure Context where
  userID : Option Int
deriving DecidableEq, Repr

namespace strings

/-- Go strings.Join: the elements separated by sep. -/
def Join : List String → String → String
  | [], _ => ""
  | [a], _ => a
  | a :: b :: rest, sep => a ++ sep ++ Join (b :: rest) sep

end strings

/-! ## The handlers -/

/-- Representation mapper (source lines 213-232). The three reads through
shortcut.OgMetadata dereference the pointer: on nil the function panics, which is
the value none. -/
def convertShortcutFromStorepb (shortcut : storepb.Shortcut) : Option apiv2pb.Shortcut :=
  match shortcut.OgMetadata with
  | none => none
  | some og =>
    some {
      Id := shortcut.Id
      CreatorId := shortcut.CreatorId
      CreatedTs := shortcut.CreatedTs
      UpdatedTs := shortcut.UpdatedTs
      RowStatus := shortcut.RowStatus
      Name := shortcut.Name
      Link := shortcut.Link
      Title := shortcut.Title
      Tags := shortcut.Tags
      Description := shortcut.Description
      Visibility := shortcut.Visibility
      OgMetadata := some {
        Title := og.Title
        Description := og.Description
        Image := og.Image } }

/-- The loop of ListShortcuts (source lines 34-37): the mapper applied to every
element in order; a panic of the mapper aborts the loop. -/
def convertAll : List storepb.Shortcut → Option (List apiv2pb.Shortcut)
  | [] => some []
  | shortcut :: rest =>
    match convertShortcutFromStorepb shortcut with
    | none => none
    | some m =>
      match convertAll rest with
      | none => none
      | some ms => some (m :: ms)

namespace APIV2Service

variable {σ : Type}

/-- Handler ListShortcuts (source lines 17-43). -/
def ListShortcuts (s : Store σ) (st : σ) (ctx : Context)
    (_request : apiv2pb.ListShortcutsRequest) : Result apiv2pb.ListShortcutsResponse × σ :=
  match ctx.userID with
  | none => (Result.panicked, st)
  | some userID =>
    let find : store.FindShortcut := {}
    let find := { find with VisibilityList := [store.VisibilityWorkspace, store.VisibilityPublic] }
    match s.ListShortcuts st find with
    | (Except.error err, st1) =>
      (Result.status codes.Internal ("failed to fetch visible shortcut list, err: " ++ err), st1)
    | (Except.ok visibleShortcutList, st1) =>
      let find := { find with VisibilityList := [store.VisibilityPrivate] }
      let find := { find with CreatorID := some userID }
      match s.ListShortcuts st1 find with
      | (Except.error err, st2) =>
        (Result.status codes.Internal ("failed to fetch private shortcut list, err: " ++ err), st2)
      | (Except.ok shortcutList, st2) =>
        let shortcutList := shortcutList ++ visibleShortcutList
        match convertAll shortcutList with
        | none => (Result.panicked, st2)
        | some shortcuts => (Result.ok { Shortcuts := shortcuts }, st2)

/-- Handler GetShortcut (source lines 45-65). -/
def GetShortcut (s : Store σ) (st : σ) (ctx : Context)
    (request : apiv2pb.GetShortcutRequest) : Result apiv2pb.GetShortcutResponse × σ :=
  match s.GetShortcut st { Name := some request.Name } with
  | (Except.error err, st1) =>
    (Result.status codes.Internal ("failed to get shortcut by name: " ++ err), st1)
  | (Except.ok none, st1) => (Result.status codes.NotFound "shortcut not found", st1)
  | (Except.ok (some shortcut), st1) =>
    match ctx.userID with
    | none => (Result.panicked, st1)
    | some userID =>
      if shortcut.Visibility = storepb.Visibility_PRIVATE ∧ shortcut.CreatorId ≠ userID then
        (Result.status codes.PermissionDenied "Permission denied", st1)
      else
        match convertShortcutFromStorepb shortcut with
        | none => (Result.panicked, st1)
        | some shortcutMessage => (Result.ok { Shortcut := shortcutMessage }, st1)

/-- Helper createShortcutCreateActivity (source lines 192-211): none is the nil
error. The JSON marshaller of the protobuf library is a parameter. -/
def createShortcutCreateActivity
    (marshal : storepb.ActivityShorcutCreatePayload → Except String String)
    (s : Store σ) (st : σ) (shortcut : storepb.Shortcut) : Option String × σ :=
  let payload : storepb.ActivityShorcutCreatePayload := { ShortcutId := shortcut.Id }
  match marshal payload with
  | Except.error err => (some ("Failed to marshal activity payload: " ++ err), st)
  | Except.ok payloadStr =>
    let activity : store.Activity := {
      CreatorID := shortcut.CreatorId
      Typ := store.ActivityShortcutCreate
      Level := store.ActivityInfo
      Payload := payloadStr }
    match s.CreateActivity st activity with
    | (Except.error err, st1) => (some ("Failed to create activity: " ++ err), st1)
    | (Except.ok _, st1) => (none, st1)

/-- The storage record CreateShortcut builds from the request (source lines 69-85). -/
def newShortcut (userID : Int) (requestShortcut : apiv2pb.Shortcut) : storepb.Shortcut :=
  let shortcut : storepb.Shortcut := {
    Id := 0
    CreatorId := userID
    CreatedTs := 0
    UpdatedTs := 0
    RowStatus := 0
    Name := requestShortcut.Name
    Link := requestShortcut.Link
    Title := requestShortcut.Title
    Tags := requestShortcut.Tags
    Description := requestShortcut.Description
    Visibility := requestShortcut.Visibility
    OgMetadata := some { Title := "", Description := "", Image := "" } }
  match requestShortcut.OgMetadata with
  | some og =>
    { shortcut with OgMetadata := some {
        Title := og.Title
        Description := og.Description
        Image := og.Image } }
  | none => shortcut

/-- Handler CreateShortcut (source lines 67-98). -/
def CreateShortcut
    (marshal : storepb.ActivityShorcutCreatePayload → Except String String)
    (s : Store σ) (st : σ) (ctx : Context)
    (request : apiv2pb.CreateShortcutRequest) : Result apiv2pb.CreateShortcutResponse × σ :=
  match ctx.userID with
  | none => (Result.panicked, st)
  | some userID =>
    match request.Shortcut with
    | none => (Result.panicked, st)
    | some requestShortcut =>
      let shortcut := newShortcut userID requestShortcut
      match s.CreateShortcut st shortcut with
      | (Except.error err, st1) =>
        (Result.status codes.Internal ("failed to create shortcut, err: " ++ err), st1)
      | (Except.ok shortcut, st1) =>
        match createShortcutCreateActivity marshal s st1 shortcut with
        | (some err, st2) =>
          (Result.status codes.Internal ("failed to create activity, err: " ++ err), st2)
        | (none, st2) =>
          match convertShortcutFromStorepb shortcut with
          | none => (Result.panicked, st2)
          | some m => (Result.ok { Shortcut := m }, st2)

/-- One iteration of the mask loop of UpdateShortcut (source lines 127-148). -/
def applyPath (requestShortcut : apiv2pb.Shortcut) (update : store.UpdateShortcut)
    (path : String) : store.UpdateShortcut :=
  if path = "link" then { update with Link := some requestShortcut.Link }
  else if path = "title" then { update with Title := some requestShortcut.Title }
  else if path = "tags" then
    let tag := strings.Join requestShortcut.Tags " "
    { update with Tag := some tag }
  else if path = "description" then
    { update with Description := some requestShortcut.Description }
  else if path = "visibility" then
    let visibility : store.Visibility := requestShortcut.Visibility
    { update with Visibility := some visibility }
  else if path = "og_metadata" then
    match requestShortcut.OgMetadata with
    | some og =>
      { update with OpenGraphMetadata := some {
          Title := og.Title
          Description := og.Description
          Image := og.Image } }
    | none => update
  else update

/-- The sparse update instruction UpdateShortcut builds (source lines 125-149): it
starts from the zero value and runs the loop over the mask paths. No statement
assigns the ID field. -/
def buildUpdate (requestShortcut : apiv2pb.Shortcut) (paths : List String) :
    store.UpdateShortcut :=
  let update : store.UpdateShortcut := {}
  paths.foldl (applyPath requestShortcut) update

/-- Handler UpdateShortcut (source lines 100-159). -/
def UpdateShortcut (s : Store σ) (st : σ) (ctx : Context)
    (request : apiv2pb.UpdateShortcutRequest) : Result apiv2pb.UpdateShortcutResponse × σ :=
  match request.UpdateMask with
  | none => (Result.status codes.InvalidArgument "updateMask is required", st)
  | some updateMask =>
    if updateMask.Paths.length = 0 then
      (Result.status codes.InvalidArgument "updateMask is required", st)
    else
      match ctx.userID with
      | none => (Result.panicked, st)
      | some userID =>
        match s.GetUser st { ID := some userID } with
        | (Except.error err, st1) =>
          (Result.status codes.Internal ("failed to get current user, err: " ++ err), st1)
        | (Except.ok currentUser, st1) =>
          match request.Shortcut with
          | none => (Result.panicked, st1)
          | some requestShortcut =>
            match s.GetShortcut st1 { Name := some requestShortcut.Name } with
            | (Except.error err, st2) =>
              (Result.status codes.Internal ("failed to get shortcut by name: " ++ err), st2)
            | (Except.ok none, st2) => (Result.status codes.NotFound "shortcut not found", st2)
            | (Except.ok (some shortcut), st2) =>
              if shortcut.CreatorId ≠ userID ∧ currentUser.Role ≠ store.RoleAdmin then
                (Result.status codes.PermissionDenied "Permission denied", st2)
              else
                let update := buildUpdate requestShortcut updateMask.Paths
                match s.UpdateShortcut st2 update with
                | (Except.error err, st3) =>
                  (Result.status codes.Internal ("failed to update shortcut, err: " ++ err), st3)
                | (Except.ok shortcut, st3) =>
                  match convertShortcutFromStorepb shortcut with
                  | none => (Result.panicked, st3)
                  | some m => (Result.ok { Shortcut := m }, st3)

/-- Handler DeleteShortcut (source lines 161-190). -/
def DeleteShortcut (s : Store σ) (st : σ) (ctx : Context)
    (request : apiv2pb.DeleteShortcutRequest) : Result apiv2pb.DeleteShortcutResponse × σ :=
  match ctx.userID with
  | none => (Result.panicked, st)
  | some userID =>
    match s.GetUser st { ID := some userID } with
    | (Except.error err, st1) =>
      (Result.status codes.Internal ("failed to get current user, err: " ++ err), st1)
    | (Except.ok currentUser, st1) =>
      match s.GetShortcut st1 { Name := some request.Name } with
      | (Except.error err, st2) =>
        (Result.status codes.Internal ("failed to get shortcut by name: " ++ err), st2)
      | (Except.ok none, st2) => (Result.status codes.NotFound "shortcut not found", st2)
      | (Except.ok (some shortcut), st2) =>
        if shortcut.CreatorId ≠ userID ∧ currentUser.Role ≠ store.RoleAdmin then
          (Result.status codes.PermissionDenied "Permission denied", st2)
        else
          match s.DeleteShortcut st2 { ID := shortcut.Id } with
          | (Except.error err, st3) =>
            (Result.status codes.Internal ("failed to delete shortcut, err: " ++ err), st3)
          | (Except.ok _, st3) => (Result.ok {}, st3)

end APIV2Service

/-! ## A reference store

The store package is not part of the reviewed file. The reference store below is
an in-memory store following the storage collaborator contract of the
specification; it is the concrete store on which the handlers are run. -/

namespace store

/-- Modelled from the spec: the filter of the store, missing from the reviewed file.
A record matches when its creator is the filter creator (when one is set), its name
is the filter name (when one is set) and its visibility lies in the visibility list
(when the list is not empty). -/
def FindShortcut.matches (find : FindShortcut) (x : storepb.Shortcut) : Bool :=
  (match find.CreatorID with
    | none => true
    | some creatorID => decide (x.CreatorId = creatorID)) &&
  (match find.Name with
    | none => true
    | some name => decide (x.Name = name)) &&
  (find.VisibilityList.isEmpty || find.VisibilityList.contains x.Visibility)

/-- Split a character sequence at every space; cur holds the current piece reversed. -/
def splitSpace : List Char → List Char → List String
  | [], cur => [String.mk cur.reverse]
  | c :: cs, cur =>
    if c = ' ' then String.mk cur.reverse :: splitSpace cs []
    else splitSpace cs (c :: cur)

/-- Modelled from the spec: the storage encoding of tags is a single space-joined
string; decoding splits at the spaces and drops empty pieces. -/
def decodeTags (tag : String) : List String :=
  (splitSpace tag.data []).filter (fun t => t ≠ "")

/-- Modelled from the spec: the store applies a sparse update by overwriting exactly
the fields present in the instruction; an absent field is left as it is. -/
def UpdateShortcut.apply (update : UpdateShortcut) (x : storepb.Shortcut) : storepb.Shortcut :=
  { x with
    Link := match update.Link with
      | some link => link
      | none => x.Link
    Title := match update.Title with
      | some title => title
      | none => x.Title
    Description := match update.Description with
      | some description => description
      | none => x.Description
    Visibility := match update.Visibility with
      | some visibility => visibility
      | none => x.Visibility
    Tags := match update.Tag with
      | some tag => decodeTags tag
      | none => x.Tags
    OgMetadata := match update.OpenGraphMetadata with
      | some og => some { Title := og.Title, Description := og.Description, Image := og.Image }
      | none => x.OgMetadata }

end store

/-- Modelled from the spec: state of the in-memory reference store, the stored
shortcuts, the users, the activity log, the next identifiers to assign and the
clock used for the storage-managed timestamps. -/
structure MemStore where
  shortcuts : List storepb.Shortcut
  users : List store.User
  activities : List store.Activity
  nextShortcutId : Int
  nextActivityId : Int
  now : Int
deriving DecidableEq, Repr

namespace MemStore

/-- Modelled from the spec: ListShortcuts answers with the stored shortcuts matching
the filter, in storage order. -/
def ListShortcuts (st : MemStore) (find : store.FindShortcut) :
    Except String (List storepb.Shortcut) × MemStore :=
  (Except.ok (st.shortcuts.filter find.matches), st)

/-- Modelled from the spec: GetShortcut answers with the first stored shortcut
matching the filter, or with no record. -/
def GetShortcut (st : MemStore) (find : store.FindShortcut) :
    Except String (Option storepb.Shortcut) × MemStore :=
  (Except.ok (st.shortcuts.find? find.matches), st)

/-- Modelled from the spec: the record as persisted, with the id, the timestamps and
the row status assigned by the store. -/
def persisted (st : MemStore) (create : storepb.Shortcut) : storepb.Shortcut :=
  { create with
    Id := st.nextShortcutId
    CreatedTs := st.now
    UpdatedTs := st.now
    RowStatus := storepb.RowStatus_NORMAL }

/-- Modelled from the spec: CreateShortcut enforces the uniqueness of the name,
persists the record it is given and assigns id, timestamps and row status. -/
def CreateShortcut (st : MemStore) (create : storepb.Shortcut) :
    Except String storepb.Shortcut × MemStore :=
  if st.shortcuts.any (fun x => decide (x.Name = create.Name)) then
    (Except.error "UNIQUE constraint failed: shortcut.name", st)
  else
    (Except.ok (st.persisted create),
      { st with
        shortcuts := st.shortcuts ++ [st.persisted create]
        nextShortcutId := st.nextShortcutId + 1 })

/-- Modelled from the spec: UpdateShortcut applies the sparse update to the record
the instruction targets, the one whose id is the ID of the instruction, and answers
with the updated record; it fails when no record has that id. -/
def UpdateShortcut (st : MemStore) (update : store.UpdateShortcut) :
    Except String storepb.Shortcut × MemStore :=
  match st.shortcuts.find? (fun x => decide (x.Id = update.ID)) with
  | none => (Except.error "sql: no rows in result set", st)
  | some target =>
    (Except.ok (update.apply target),
      { st with shortcuts :=
          st.shortcuts.map (fun x => if x.Id = update.ID then update.apply x else x) })

/-- Modelled from the spec: DeleteShortcut removes the record with the given id. -/
def DeleteShortcut (st : MemStore) (delete : store.DeleteShortcut) :
    Except String Unit × MemStore :=
  (Except.ok (), { st with shortcuts := st.shortcuts.filter (fun x => decide (x.Id ≠ delete.ID)) })

/-- Modelled from the spec: GetUser answers with the user of the given id, or fails. -/
def GetUser (st : MemStore) (find : store.FindUser) : Except String store.User × MemStore :=
  match st.users.find? (fun u => decide (some u.ID = find.ID)) with
  | none => (Except.error "user not found", st)
  | some user => (Except.ok user, st)

/-- Modelled from the spec: the activity as recorded, with the id and the creation
time assigned by the store. -/
def recorded (st : MemStore) (create : store.Activity) : store.Activity :=
  { create with ID := st.nextActivityId, CreatedTs := st.now }

/-- Modelled from the spec: CreateActivity appends the record to the activity log
and assigns its id and creation time. -/
def CreateActivity (st : MemStore) (create : store.Activity) :
    Except String store.Activity × MemStore :=
  (Except.ok (st.recorded create),
    { st with
      activities := st.activities ++ [st.recorded create]
      nextActivityId := st.nextActivityId + 1 })

end MemStore

/-- The in-memory reference store as a storage collaborator. -/
def memStore : Store MemStore where
  ListShortcuts := MemStore.ListShortcuts
  GetShortcut := MemStore.GetShortcut
  CreateShortcut := MemStore.CreateShortcut
  UpdateShortcut := MemStore.UpdateShortcut
  DeleteShortcut := MemStore.DeleteShortcut
  GetUser := MemStore.GetUser
  CreateActivity := MemStore.CreateActivity

/-- A JSON marshaller of the creation payload, used to run CreateShortcut on concrete
inputs. It follows the compact output of the protobuf JSON marshaller: the id in
decimal under the key shortcutId, and the empty object when the id is the zero
value, which the library omits. -/
def marshalPayload (payload : storepb.ActivityShorcutCreatePayload) : Except String String :=
  if payload.ShortcutId = 0 then Except.ok "\x7b\x7d"
  else Except.ok ("\x7b\"shortcutId\":" ++ toString payload.ShortcutId ++ "\x7d")

/-! ## A store that logs its calls -/

/-- A call issued to the store, with its argument. -/
inductive StoreCall where
  | ListShortcuts (find : store.FindShortcut)
  | GetShortcut (find : store.FindShortcut)
  | CreateShortcut (create : storepb.Shortcut)
  | UpdateShortcut (update : store.UpdateShortcut)
  | DeleteShortcut (delete : store.DeleteShortcut)
  | GetUser (find : store.FindUser)
  | CreateActivity (create : store.Activity)
deriving DecidableEq, Repr

/-- The store s with a log: every call is answered by s and appended to the log. -/
def Store.logged {σ : Type} (s : Store σ) : Store (σ × List StoreCall) where
  ListShortcuts := fun st find =>
    ((s.ListShortcuts st.1 find).1, (s.ListShortcuts st.1 find).2,
      st.2 ++ [StoreCall.ListShortcuts find])
  GetShortcut := fun st find =>
    ((s.GetShortcut st.1 find).1, (s.GetShortcut st.1 find).2,
      st.2 ++ [StoreCall.GetShortcut find])
  CreateShortcut := fun st create =>
    ((s.CreateShortcut st.1 create).1, (s.CreateShortcut st.1 create).2,
      st.2 ++ [StoreCall.CreateShortcut create])
  UpdateShortcut := fun st update =>
    ((s.UpdateShortcut st.1 update).1, (s.UpdateShortcut st.1 update).2,
      st.2 ++ [StoreCall.UpdateShortcut update])
  DeleteShortcut := fun st delete =>
    ((s.DeleteShortcut st.1 delete).1, (s.DeleteShortcut st.1 delete).2,
      st.2 ++ [StoreCall.DeleteShortcut delete])
  GetUser := fun st find =>
    ((s.GetUser st.1 find).1, (s.GetUser st.1 find).2, st.2 ++ [StoreCall.GetUser find])
  CreateActivity := fun st create =>
    ((s.CreateActivity st.1 create).1, (s.CreateActivity st.1 create).2,
      st.2 ++ [StoreCall.CreateActivity create])

/-! ## Sample data -/

namespace Sample

def og : storepb.OpenGraphMetadata := { Title := "Go", Description := "The Go site", Image := "go.png" }

/-- A private shortcut of user 7. -/
def goShortcut : storepb.Shortcut := {
  Id := 1, CreatorId := 7, CreatedTs := 100, UpdatedTs := 100,
  RowStatus := storepb.RowStatus_NORMAL, Name := "go", Link := "https://go.dev",
  Title := "Go", Tags := ["lang"], Description := "", Visibility := storepb.Visibility_PRIVATE,
  OgMetadata := some og }

/-- A workspace shortcut of user 9. -/
def wikiShortcut : storepb.Shortcut := {
  Id := 2, CreatorId := 9, CreatedTs := 110, UpdatedTs := 110,
  RowStatus := storepb.RowStatus_NORMAL, Name := "wiki", Link := "https://wiki.example",
  Title := "Wiki", Tags := [], Description := "team wiki",
  Visibility := storepb.Visibility_WORKSPACE, OgMetadata := some og }

def users : List store.User :=
  [{ ID := 7, Role := store.RoleUser }, { ID := 9, Role := store.RoleUser },
   { ID := 1, Role := store.RoleAdmin }]

def state : MemStore := {
  shortcuts := [goShortcut, wikiShortcut], users := users, activities := [],
  nextShortcutId := 3, nextActivityId := 1, now := 200 }

/-- A request payload naming the shortcut go and carrying a new link, a new title
and no metadata object. -/
def goPatch : apiv2pb.Shortcut := {
  Id := 0, CreatorId := 0, CreatedTs := 0, UpdatedTs := 0, RowStatus := 0, Name := "go",
  Link := "https://golang.org", Title := "Golang", Tags := [], Description := "",
  Visibility := apiv2pb.Visibility_PUBLIC, OgMetadata := none }

/-- A storage record whose metadata pointer is nil. -/
def bareShortcut : storepb.Shortcut := {
  Id := 3, CreatorId := 7, CreatedTs := 120, UpdatedTs := 120,
  RowStatus := storepb.RowStatus_NORMAL, Name := "bare", Link := "https://bare.example",
  Title := "Bare", Tags := [], Description := "", Visibility := storepb.Visibility_PUBLIC,
  OgMetadata := none }

/-- A public shortcut of user 7 whose id is the zero value. -/
def zeroShortcut : storepb.Shortcut := {
  Id := 0, CreatorId := 7, CreatedTs := 90, UpdatedTs := 90,
  RowStatus := storepb.RowStatus_NORMAL, Name := "zero", Link := "https://zero.example",
  Title := "Zero", Tags := ["a", "b"], Description := "first row",
  Visibility := storepb.Visibility_PUBLIC, OgMetadata := some og }

/-- The wire image of zeroShortcut. -/
def zeroWire : apiv2pb.Shortcut := {
  Id := 0, CreatorId := 7, CreatedTs := 90, UpdatedTs := 90,
  RowStatus := 1, Name := "zero", Link := "https://zero.example",
  Title := "Zero", Tags := ["a", "b"], Description := "first row",
  Visibility := apiv2pb.Visibility_PUBLIC,
  OgMetadata := some { Title := "Go", Description := "The Go site", Image := "go.png" } }

/-- A store holding zeroShortcut next to the shortcut go. -/
def zeroState : MemStore := {
  shortcuts := [zeroShortcut, goShortcut], users := users, activities := [],
  nextShortcutId := 2, nextActivityId := 1, now := 200 }

/-- A request payload naming the shortcut zero, with other values in every field and
no metadata object. -/
def zeroPatch : apiv2pb.Shortcut := {
  Id := 55, CreatorId := 9, CreatedTs := 1, UpdatedTs := 1, RowStatus := 2, Name := "zero",
  Link := "https://other.example", Title := "Other", Tags := ["x y"], Description := "other",
  Visibility := apiv2pb.Visibility_PRIVATE, OgMetadata := none }

/-- A create request payload: a private shortcut named docs, with two tags and no
metadata object; id, creator and timestamps carry values the handler must ignore. -/
def docsRequest : apiv2pb.Shortcut := {
  Id := 77, CreatorId := 1, CreatedTs := 5, UpdatedTs := 6, RowStatus := 0, Name := "docs",
  Link := "https://docs.example", Title := "Docs", Tags := ["doc", "ref"],
  Description := "documentation", Visibility := apiv2pb.Visibility_PRIVATE, OgMetadata := none }

/-- The wire shortcut the sample store returns when user 9 creates docsRequest. -/
def docsWire : apiv2pb.Shortcut := {
  Id := 3, CreatorId := 9, CreatedTs := 200, UpdatedTs := 200, RowStatus := 1, Name := "docs",
  Link := "https://docs.example", Title := "Docs", Tags := ["doc", "ref"],
  Description := "documentation", Visibility := apiv2pb.Visibility_PRIVATE,
  OgMetadata := some { Title := "", Description := "", Image := "" } }

/-- The reference store with an activity log that refuses every write. -/
def failingActivityStore : Store MemStore :=
  { memStore with CreateActivity := fun st _ => (Except.error "disk full", st) }

/-- A request payload naming the shortcut go, whose id is 1, with a new title. -/
def goTitlePatch : apiv2pb.Shortcut := {
  Id := 1, CreatorId := 7, CreatedTs := 0, UpdatedTs := 0, RowStatus := 0, Name := "go",
  Link := "", Title := "Golang", Tags := [], Description := "",
  Visibility := apiv2pb.Visibility_PRIVATE, OgMetadata := none }

/-- A create request payload that leaves the visibility at the zero value of the
enumeration. -/
def draftRequest : apiv2pb.Shortcut := {
  Id := 0, CreatorId := 0, CreatedTs := 0, UpdatedTs := 0, RowStatus := 0, Name := "draft",
  Link := "https://draft.example", Title := "Draft", Tags := [], Description := "",
  Visibility := apiv2pb.Visibility_VISIBILITY_UNSPECIFIED, OgMetadata := none }

/-- The record the sample store persists when user 7 creates draftRequest. -/
def draftShortcut : storepb.Shortcut := {
  Id := 3, CreatorId := 7, CreatedTs := 200, UpdatedTs := 200,
  RowStatus := storepb.RowStatus_NORMAL, Name := "draft", Link := "https://draft.example",
  Title := "Draft", Tags := [], Description := "",
  Visibility := storepb.Visibility_VISIBILITY_UNSPECIFIED,
  OgMetadata := some { Title := "", Description := "", Image := "" } }

/-- The wire image of draftShortcut. -/
def draftWire : apiv2pb.Shortcut := {
  Id := 3, CreatorId := 7, CreatedTs := 200, UpdatedTs := 200, RowStatus := 1, Name := "draft",
  Link := "https://draft.example", Title := "Draft", Tags := [], Description := "",
  Visibility := apiv2pb.Visibility_VISIBILITY_UNSPECIFIED,
  OgMetadata := some { Title := "", Description := "", Image := "" } }

/-- The sample store after user 7 created draftRequest. -/
def draftState : MemStore :=
  (APIV2Service.CreateShortcut marshalPayload memStore state { userID := some 7 }
    { Shortcut := some draftRequest }).2

/-- The wire image of wikiShortcut. -/
def wikiWire : apiv2pb.Shortcut := {
  Id := 2, CreatorId := 9, CreatedTs := 110, UpdatedTs := 110, RowStatus := 1, Name := "wiki",
  Link := "https://wiki.example", Title := "Wiki", Tags := [], Description := "team wiki",
  Visibility := apiv2pb.Visibility_WORKSPACE,
  OgMetadata := some { Title := "Go", Description := "The Go site", Image := "go.png" } }

/-- The reference store behind a resolver that directs every update instruction to
the record with id 1, the shortcut go of the sample state: a store that takes the
shortcut go as the target of the update. -/
def goTargetStore : Store MemStore :=
  { memStore with
    UpdateShortcut := fun st update => memStore.UpdateShortcut st { update with ID := 1 } }

end Sample

/-! # Lemmas -/

/-! ## Facts about the mapper -/

theorem convertShortcutFromStorepb_injective (x y : storepb.Shortcut) (w : apiv2pb.Shortcut)
    (hx : convertShortcutFromStorepb x = some w) (hy : convertShortcutFromStorepb y = some w) :
    x = y := by
  obtain ⟨xi, xc, xct, xut, xr, xn, xl, xt, xg, xd, xv, xo⟩ := x
  obtain ⟨yi, yc, yct, yut, yr, yn, yl, yt, yg, yd, yv, yo⟩ := y
  cases xo with
  | none => simp [convertShortcutFromStorepb] at hx
  | some xo =>
    cases yo with
    | none => simp [convertShortcutFromStorepb] at hy
    | some yo =>
      obtain ⟨a, b, c⟩ := xo
      obtain ⟨d, e, f⟩ := yo
      simp only [convertShortcutFromStorepb, Option.some.injEq] at hx hy
      subst hx
      simp only [apiv2pb.Shortcut.mk.injEq, Option.some.injEq,
        apiv2pb.OpenGraphMetadata.mk.injEq] at hy
      obtain ⟨h1, h2, h3, h4, h5, h6, h7, h8, h9, h10, h11, h12, h13, h14⟩ := hy
      subst h1 h2 h3 h4 h5 h6 h7 h8 h9 h10 h11 h12 h13 h14
      rfl

theorem convertAll_mem (l : List storepb.Shortcut) (ws : List apiv2pb.Shortcut)
    (h : convertAll l = some ws) (w : apiv2pb.Shortcut) :
    w ∈ ws ↔ ∃ x ∈ l, convertShortcutFromStorepb x = some w := by
  induction l generalizing ws with
  | nil =>
    simp only [convertAll, Option.some.injEq] at h
    subst h
    simp
  | cons a rest ih =>
    simp only [convertAll] at h
    cases ha : convertShortcutFromStorepb a with
    | none => simp [ha] at h
    | some m =>
      cases hr : convertAll rest with
      | none => simp [ha, hr] at h
      | some ms =>
        simp only [ha, hr, Option.some.injEq] at h
        subst h
        have := ih ms hr
        simp only [List.mem_cons, this]
        constructor
        · rintro (rfl | ⟨x, hx, hxw⟩)
          · exact ⟨a, Or.inl rfl, ha⟩
          · exact ⟨x, Or.inr hx, hxw⟩
        · rintro ⟨x, (rfl | hx), hxw⟩
          · left
            rw [ha] at hxw
            exact (Option.some.inj hxw).symm
          · exact Or.inr ⟨x, hx, hxw⟩

theorem convertAll_isSome (l : List storepb.Shortcut)
    (h : ∀ x ∈ l, x.OgMetadata ≠ none) : ∃ ws, convertAll l = some ws := by
  induction l with
  | nil => exact ⟨[], rfl⟩
  | cons a rest ih =>
    obtain ⟨ms, hms⟩ := ih (fun x hx => h x (List.mem_cons_of_mem a hx))
    have ha := h a (List.mem_cons_self a rest)
    cases hog : a.OgMetadata with
    | none => exact absurd hog ha
    | some og =>
      simp only [convertAll, convertShortcutFromStorepb, hog, hms]
      exact ⟨_, rfl⟩

theorem convertAll_eq_none_of_mem (l : List storepb.Shortcut) (x : storepb.Shortcut)
    (hx : x ∈ l) (hnone : x.OgMetadata = none) : convertAll l = none := by
  induction l with
  | nil => simp at hx
  | cons a rest ih =>
    rcases List.mem_cons.mp hx with rfl | hx
    · simp [convertAll, convertShortcutFromStorepb, hnone]
    · simp only [convertAll]
      cases convertShortcutFromStorepb a with
      | none => rfl
      | some m => simp [ih hx]

theorem convertAll_none_mem (l : List storepb.Shortcut) (h : convertAll l ≠ none) :
    ∀ x ∈ l, x.OgMetadata ≠ none :=
  fun x hx hnone => h (convertAll_eq_none_of_mem l x hx hnone)

/-! ## Facts about the reference store and the update instruction -/

theorem UpdateShortcut_apply_empty (x : storepb.Shortcut) :
    store.UpdateShortcut.apply {} x = x := rfl

theorem MemStore_GetUser_snd (st : MemStore) (find : store.FindUser) :
    (memStore.GetUser st find).2 = st := by
  simp only [memStore, MemStore.GetUser]
  split <;> rfl

theorem MemStore_GetShortcut_snd (st : MemStore) (find : store.FindShortcut) :
    (memStore.GetShortcut st find).2 = st := rfl

theorem buildUpdate_og_metadata_absent (requestShortcut : apiv2pb.Shortcut)
    (hAbsent : requestShortcut.OgMetadata = none) :
    APIV2Service.buildUpdate requestShortcut ["og_metadata"] = {} := by
  simp [APIV2Service.buildUpdate, APIV2Service.applyPath, hAbsent]

/-- The store state UpdateShortcut hands back is the state it was given, or the
state after GetUser, or after GetUser and GetShortcut, or after these and the store
update with the built instruction. -/
theorem UpdateShortcut_state_cases {σ : Type} (s : Store σ) (st : σ) (ctx : Context)
    (request : apiv2pb.UpdateShortcutRequest) :
    (APIV2Service.UpdateShortcut s st ctx request).2 = st ∨
    ∃ C, ctx.userID = some C ∧
      ((APIV2Service.UpdateShortcut s st ctx request).2 = (s.GetUser st { ID := some C }).2 ∨
      ∃ requestShortcut, request.Shortcut = some requestShortcut ∧
        ((APIV2Service.UpdateShortcut s st ctx request).2 =
          (s.GetShortcut (s.GetUser st { ID := some C }).2
            { Name := some requestShortcut.Name }).2 ∨
        ∃ mask, request.UpdateMask = some mask ∧
          (APIV2Service.UpdateShortcut s st ctx request).2 =
            (s.UpdateShortcut (s.GetShortcut (s.GetUser st { ID := some C }).2
              { Name := some requestShortcut.Name }).2
              (APIV2Service.buildUpdate requestShortcut mask.Paths)).2)) := by
  cases hm : request.UpdateMask with
  | none => left; simp [APIV2Service.UpdateShortcut, hm]
  | some mask =>
    by_cases hl : mask.Paths.length = 0
    · left; simp [APIV2Service.UpdateShortcut, hm, hl]
    · cases hc : ctx.userID with
      | none => left; simp [APIV2Service.UpdateShortcut, hm, hl, hc]
      | some C =>
        right
        refine ⟨C, rfl, ?_⟩
        rcases hgu : s.GetUser st { ID := some C } with ⟨ru, st1⟩
        cases ru with
        | error err => left; simp [APIV2Service.UpdateShortcut, hm, hl, hc, hgu]
        | ok user =>
          cases hs : request.Shortcut with
          | none => left; simp [APIV2Service.UpdateShortcut, hm, hl, hc, hgu, hs]
          | some requestShortcut =>
            right
            refine ⟨requestShortcut, rfl, ?_⟩
            rcases hgs : s.GetShortcut st1 { Name := some requestShortcut.Name } with ⟨rs, st2⟩
            cases rs with
            | error err => left; simp [APIV2Service.UpdateShortcut, hm, hl, hc, hgu, hs, hgs]
            | ok found =>
              cases found with
              | none => left; simp [APIV2Service.UpdateShortcut, hm, hl, hc, hgu, hs, hgs]
              | some shortcut =>
                by_cases hd : shortcut.CreatorId ≠ C ∧ user.Role ≠ store.RoleAdmin
                · left; simp [APIV2Service.UpdateShortcut, hm, hl, hc, hgu, hs, hgs, hd]
                · right
                  refine ⟨mask, rfl, ?_⟩
                  rcases hup : s.UpdateShortcut st2
                    (APIV2Service.buildUpdate requestShortcut mask.Paths) with ⟨rup, st3⟩
                  cases rup with
                  | error err =>
                    simp [APIV2Service.UpdateShortcut, hm, hl, hc, hgu, hs, hgs, hd, hup]
                  | ok updated =>
                    cases hcv : convertShortcutFromStorepb updated <;>
                      simp [APIV2Service.UpdateShortcut, hm, hl, hc, hgu, hs, hgs, hd, hup, hcv]

/-! ## Facts about CreateShortcut on the reference store -/

theorem newShortcut_OgMetadata (userID : Int) (requestShortcut : apiv2pb.Shortcut) :
    (APIV2Service.newShortcut userID requestShortcut).OgMetadata =
      some (match requestShortcut.OgMetadata with
        | some og => { Title := og.Title, Description := og.Description, Image := og.Image }
        | none => { Title := "", Description := "", Image := "" }) := by
  unfold APIV2Service.newShortcut
  cases requestShortcut.OgMetadata <;> rfl

theorem newShortcut_fields (userID : Int) (requestShortcut : apiv2pb.Shortcut) :
    (APIV2Service.newShortcut userID requestShortcut).CreatorId = userID ∧
    (APIV2Service.newShortcut userID requestShortcut).Name = requestShortcut.Name ∧
    (APIV2Service.newShortcut userID requestShortcut).Link = requestShortcut.Link ∧
    (APIV2Service.newShortcut userID requestShortcut).Title = requestShortcut.Title ∧
    (APIV2Service.newShortcut userID requestShortcut).Tags = requestShortcut.Tags ∧
    (APIV2Service.newShortcut userID requestShortcut).Description = requestShortcut.Description ∧
    (APIV2Service.newShortcut userID requestShortcut).Visibility = requestShortcut.Visibility := by
  unfold APIV2Service.newShortcut
  cases requestShortcut.OgMetadata <;> simp

/-- The wire image of the record persisted for a create request. -/
theorem convert_persisted_newShortcut (st : MemStore) (userID : Int)
    (requestShortcut : apiv2pb.Shortcut) :
    convertShortcutFromStorepb (st.persisted (APIV2Service.newShortcut userID requestShortcut)) =
      some {
        Id := st.nextShortcutId
        CreatorId := userID
        CreatedTs := st.now
        UpdatedTs := st.now
        RowStatus := storepb.RowStatus_NORMAL
        Name := requestShortcut.Name
        Link := requestShortcut.Link
        Title := requestShortcut.Title
        Tags := requestShortcut.Tags
        Description := requestShortcut.Description
        Visibility := requestShortcut.Visibility
        OgMetadata := some (match requestShortcut.OgMetadata with
          | some og => og
          | none => { Title := "", Description := "", Image := "" }) } := by
  unfold APIV2Service.newShortcut MemStore.persisted convertShortcutFromStorepb
  cases requestShortcut.OgMetadata <;> rfl

theorem MemStore_CreateShortcut_fresh (st : MemStore) (create : storepb.Shortcut)
    (hFresh : ∀ x ∈ st.shortcuts, x.Name ≠ create.Name) :
    memStore.CreateShortcut st create =
      (Except.ok (st.persisted create),
        { st with
          shortcuts := st.shortcuts ++ [st.persisted create]
          nextShortcutId := st.nextShortcutId + 1 }) := by
  have : st.shortcuts.any (fun x => decide (x.Name = create.Name)) = false := by
    simp only [List.any_eq_false, decide_eq_true_eq]
    exact hFresh
  simp [memStore, MemStore.CreateShortcut, this]

theorem MemStore_CreateShortcut_taken (st : MemStore) (create : storepb.Shortcut)
    (hTaken : ¬ ∀ x ∈ st.shortcuts, x.Name ≠ create.Name) :
    memStore.CreateShortcut st create =
      (Except.error "UNIQUE constraint failed: shortcut.name", st) := by
  have : st.shortcuts.any (fun x => decide (x.Name = create.Name)) = true := by
    simp only [List.any_eq_true, decide_eq_true_eq]
    push_neg at hTaken
    exact hTaken
  simp [memStore, MemStore.CreateShortcut, this]

theorem find_by_name_append_fresh (l : List storepb.Shortcut) (x : storepb.Shortcut)
    (name : String) (hx : x.Name = name) (hFresh : ∀ y ∈ l, y.Name ≠ name) :
    (l ++ [x]).find? (store.FindShortcut.matches { Name := some name }) = some x := by
  induction l with
  | nil => simp [store.FindShortcut.matches, hx]
  | cons a rest ih =>
    have ha : a.Name ≠ name := hFresh a (List.mem_cons_self a rest)
    have hr := ih (fun y hy => hFresh y (List.mem_cons_of_mem a hy))
    simp only [List.cons_append, List.find?_cons]
    have : store.FindShortcut.matches { Name := some name } a = false := by
      simp [store.FindShortcut.matches, ha]
    rw [this]
    exact hr

/-- CreateShortcut on the reference store, for a fresh name and a payload that
marshals: the response and the next state. -/
theorem CreateShortcut_memStore_ok
    (marshal : storepb.ActivityShorcutCreatePayload → Except String String)
    (st : MemStore) (C : Int) (requestShortcut : apiv2pb.Shortcut) (payload : String)
    (hFresh : ∀ x ∈ st.shortcuts, x.Name ≠ requestShortcut.Name)
    (hMarshal : marshal { ShortcutId := st.nextShortcutId } = Except.ok payload) :
    ∃ w, convertShortcutFromStorepb
        (st.persisted (APIV2Service.newShortcut C requestShortcut)) = some w ∧
      APIV2Service.CreateShortcut marshal memStore st { userID := some C }
        { Shortcut := some requestShortcut } =
      (Result.ok { Shortcut := w },
        { st with
          shortcuts := st.shortcuts ++ [st.persisted (APIV2Service.newShortcut C requestShortcut)]
          nextShortcutId := st.nextShortcutId + 1
          activities := st.activities ++ [{
            ID := st.nextActivityId
            CreatedTs := st.now
            CreatorID := C
            Typ := store.ActivityShortcutCreate
            Level := store.ActivityInfo
            Payload := payload }]
          nextActivityId := st.nextActivityId + 1 }) := by
  have hn := newShortcut_fields C requestShortcut
  have hc := MemStore_CreateShortcut_fresh st (APIV2Service.newShortcut C requestShortcut)
    (by rw [hn.2.1]; exact hFresh)
  have hw := convert_persisted_newShortcut st C requestShortcut
  refine ⟨_, hw, ?_⟩
  have hid : (st.persisted (APIV2Service.newShortcut C requestShortcut)).Id =
      st.nextShortcutId := rfl
  have hcr : (st.persisted (APIV2Service.newShortcut C requestShortcut)).CreatorId = C := hn.1
  simp only [APIV2Service.CreateShortcut, hc, APIV2Service.createShortcutCreateActivity, hid,
    hMarshal, hcr, hw]
  rfl

/-- A successful CreateShortcut on the reference store had a caller, a payload, a
fresh name and a creation payload that marshals. -/
theorem CreateShortcut_memStore_success
    (marshal : storepb.ActivityShorcutCreatePayload → Except String String)
    (st st1 : MemStore) (ctx : Context) (request : apiv2pb.CreateShortcutRequest)
    (resp : apiv2pb.CreateShortcutResponse)
    (h : APIV2Service.CreateShortcut marshal memStore st ctx request = (Result.ok resp, st1)) :
    ∃ C requestShortcut payload, ctx.userID = some C ∧
      request.Shortcut = some requestShortcut ∧
      (∀ x ∈ st.shortcuts, x.Name ≠ requestShortcut.Name) ∧
      marshal { ShortcutId := st.nextShortcutId } = Except.ok payload := by
  cases hc : ctx.userID with
  | none => simp [APIV2Service.CreateShortcut, hc] at h
  | some C =>
    cases hs : request.Shortcut with
    | none => simp [APIV2Service.CreateShortcut, hc, hs] at h
    | some requestShortcut =>
      refine ⟨C, requestShortcut, ?_⟩
      have hn := newShortcut_fields C requestShortcut
      by_cases hFresh : ∀ x ∈ st.shortcuts, x.Name ≠ requestShortcut.Name
      · have hcs := MemStore_CreateShortcut_fresh st (APIV2Service.newShortcut C requestShortcut)
          (by rw [hn.2.1]; exact hFresh)
        have hid : (st.persisted (APIV2Service.newShortcut C requestShortcut)).Id =
            st.nextShortcutId := rfl
        cases hm : marshal { ShortcutId := st.nextShortcutId } with
        | error err =>
          simp [APIV2Service.CreateShortcut, hc, hs, hcs,
            APIV2Service.createShortcutCreateActivity, hid, hm] at h
        | ok payload => exact ⟨payload, rfl, rfl, hFresh, rfl⟩
      · have hcs := MemStore_CreateShortcut_taken st (APIV2Service.newShortcut C requestShortcut)
          (by rw [hn.2.1]; exact hFresh)
        simp [APIV2Service.CreateShortcut, hc, hs, hcs] at h

/-! ## Frame lemmas: what the reading and the writing handlers leave alone -/

theorem ListShortcuts_frame {σ β : Type} (s : Store σ) (view : σ → β)
    (hList : ∀ st find, view (s.ListShortcuts st find).2 = view st)
    (st : σ) (ctx : Context) (request : apiv2pb.ListShortcutsRequest) :
    view (APIV2Service.ListShortcuts s st ctx request).2 = view st := by
  cases hc : ctx.userID with
  | none => simp [APIV2Service.ListShortcuts, hc]
  | some C =>
    have h1 := hList st { VisibilityList := [store.VisibilityWorkspace, store.VisibilityPublic] }
    rcases hv : s.ListShortcuts st
      { VisibilityList := [store.VisibilityWorkspace, store.VisibilityPublic] } with ⟨rv, st1⟩
    rw [hv] at h1
    cases rv with
    | error err => simpa [APIV2Service.ListShortcuts, hc, hv] using h1
    | ok visible =>
      have h2 := hList st1 { CreatorID := some C, VisibilityList := [store.VisibilityPrivate] }
      rcases hp : s.ListShortcuts st1
        { CreatorID := some C, VisibilityList := [store.VisibilityPrivate] } with ⟨rp, st2⟩
      rw [hp] at h2
      have h3 : view st2 = view st := h2.trans h1
      cases rp with
      | error err => simpa [APIV2Service.ListShortcuts, hc, hv, hp] using h3
      | ok owned =>
        cases hcv : convertAll (owned ++ visible) <;>
          simpa [APIV2Service.ListShortcuts, hc, hv, hp, hcv] using h3

theorem GetShortcut_frame {σ β : Type} (s : Store σ) (view : σ → β)
    (hGet : ∀ st find, view (s.GetShortcut st find).2 = view st)
    (st : σ) (ctx : Context) (request : apiv2pb.GetShortcutRequest) :
    view (APIV2Service.GetShortcut s st ctx request).2 = view st := by
  have h1 := hGet st { Name := some request.Name }
  rcases hg : s.GetShortcut st { Name := some request.Name } with ⟨rg, st1⟩
  rw [hg] at h1
  cases rg with
  | error err => simpa [APIV2Service.GetShortcut, hg] using h1
  | ok found =>
    cases found with
    | none => simpa [APIV2Service.GetShortcut, hg] using h1
    | some shortcut =>
      cases hc : ctx.userID with
      | none => simpa [APIV2Service.GetShortcut, hg, hc] using h1
      | some C =>
        by_cases hd : shortcut.Visibility = storepb.Visibility_PRIVATE ∧ shortcut.CreatorId ≠ C
        · simpa [APIV2Service.GetShortcut, hg, hc, hd] using h1
        · cases hcv : convertShortcutFromStorepb shortcut <;>
            simpa [APIV2Service.GetShortcut, hg, hc, hd, hcv] using h1

theorem UpdateShortcut_frame {σ β : Type} (s : Store σ) (view : σ → β)
    (hUser : ∀ st find, view (s.GetUser st find).2 = view st)
    (hGet : ∀ st find, view (s.GetShortcut st find).2 = view st)
    (hUpdate : ∀ st update, view (s.UpdateShortcut st update).2 = view st)
    (st : σ) (ctx : Context) (request : apiv2pb.UpdateShortcutRequest) :
    view (APIV2Service.UpdateShortcut s st ctx request).2 = view st := by
  rcases UpdateShortcut_state_cases s st ctx request
    with h | ⟨C, -, h | ⟨rs, -, h | ⟨mask, -, h⟩⟩⟩
  · rw [h]
  · rw [h, hUser]
  · rw [h, hGet, hUser]
  · rw [h, hUpdate, hGet, hUser]

theorem DeleteShortcut_frame {σ β : Type} (s : Store σ) (view : σ → β)
    (hUser : ∀ st find, view (s.GetUser st find).2 = view st)
    (hGet : ∀ st find, view (s.GetShortcut st find).2 = view st)
    (hDelete : ∀ st delete, view (s.DeleteShortcut st delete).2 = view st)
    (st : σ) (ctx : Context) (request : apiv2pb.DeleteShortcutRequest) :
    view (APIV2Service.DeleteShortcut s st ctx request).2 = view st := by
  cases hc : ctx.userID with
  | none => simp [APIV2Service.DeleteShortcut, hc]
  | some C =>
    have h1 := hUser st { ID := some C }
    rcases hu : s.GetUser st { ID := some C } with ⟨ru, st1⟩
    rw [hu] at h1
    cases ru with
    | error err => simpa [APIV2Service.DeleteShortcut, hc, hu] using h1
    | ok user =>
      have h2 := hGet st1 { Name := some request.Name }
      rcases hg : s.GetShortcut st1 { Name := some request.Name } with ⟨rg, st2⟩
      rw [hg] at h2
      have h3 : view st2 = view st := h2.trans h1
      cases rg with
      | error err => simpa [APIV2Service.DeleteShortcut, hc, hu, hg] using h3
      | ok found =>
        cases found with
        | none => simpa [APIV2Service.DeleteShortcut, hc, hu, hg] using h3
        | some shortcut =>
          by_cases hd : shortcut.CreatorId ≠ C ∧ user.Role ≠ store.RoleAdmin
          · simpa [APIV2Service.DeleteShortcut, hc, hu, hg, hd] using h3
          · have h4 := hDelete st2 { ID := shortcut.Id }
            rcases hdel : s.DeleteShortcut st2 { ID := shortcut.Id } with ⟨rd, st3⟩
            rw [hdel] at h4
            have h5 : view st3 = view st := h4.trans h3
            cases rd <;> simpa [APIV2Service.DeleteShortcut, hc, hu, hg, hd, hdel] using h5

theorem convertShortcutFromStorepb_ids (x : storepb.Shortcut) (w : apiv2pb.Shortcut)
    (h : convertShortcutFromStorepb x = some w) : w.Id = x.Id ∧ w.CreatorId = x.CreatorId := by
  unfold convertShortcutFromStorepb at h
  cases hog : x.OgMetadata with
  | none => simp [hog] at h
  | some og =>
    simp only [hog, Option.some.injEq] at h
    subst h
    exact ⟨rfl, rfl⟩

/-- The calls a successful CreateShortcut issues to the logging store. -/
theorem CreateShortcut_logged_calls {σ : Type}
    (marshal : storepb.ActivityShorcutCreatePayload → Except String String)
    (s : Store σ) (st st1 : σ) (log log1 : List StoreCall) (ctx : Context)
    (request : apiv2pb.CreateShortcutRequest) (resp : apiv2pb.CreateShortcutResponse)
    (h : APIV2Service.CreateShortcut marshal s.logged (st, log) ctx request =
      (Result.ok resp, (st1, log1))) :
    ∃ create a, log1 = log ++ [StoreCall.CreateShortcut create, StoreCall.CreateActivity a] ∧
      a.Typ = store.ActivityShortcutCreate ∧ a.Level = store.ActivityInfo ∧
      a.CreatorID = resp.Shortcut.CreatorId ∧
      marshal { ShortcutId := resp.Shortcut.Id } = Except.ok a.Payload := by
  cases hc : ctx.userID with
  | none => simp [APIV2Service.CreateShortcut, hc] at h
  | some C =>
    cases hs : request.Shortcut with
    | none => simp [APIV2Service.CreateShortcut, hc, hs] at h
    | some requestShortcut =>
      rcases hcs : s.CreateShortcut st (APIV2Service.newShortcut C requestShortcut)
        with ⟨rc, st2⟩
      cases rc with
      | error err => simp [APIV2Service.CreateShortcut, Store.logged, hc, hs, hcs] at h
      | ok shortcut =>
        cases hm : marshal { ShortcutId := shortcut.Id } with
        | error err =>
          simp [APIV2Service.CreateShortcut, Store.logged, hc, hs, hcs,
            APIV2Service.createShortcutCreateActivity, hm] at h
        | ok payload =>
          rcases hca : s.CreateActivity st2 {
              CreatorID := shortcut.CreatorId, Typ := store.ActivityShortcutCreate,
              Level := store.ActivityInfo, Payload := payload } with ⟨ra, st3⟩
          cases ra with
          | error err =>
            simp [APIV2Service.CreateShortcut, Store.logged, hc, hs, hcs,
              APIV2Service.createShortcutCreateActivity, hm, hca] at h
          | ok activity =>
            cases hcv : convertShortcutFromStorepb shortcut with
            | none =>
              simp [APIV2Service.CreateShortcut, Store.logged, hc, hs, hcs,
                APIV2Service.createShortcutCreateActivity, hm, hca, hcv] at h
            | some w =>
              simp only [APIV2Service.CreateShortcut, Store.logged, hc, hs, hcs,
                APIV2Service.createShortcutCreateActivity, hm, hca, hcv, Prod.mk.injEq,
                Result.ok.injEq, List.append_assoc, List.singleton_append] at h
              obtain ⟨hresp, -, hlog⟩ := h
              subst hresp
              obtain ⟨hid, hcr⟩ := convertShortcutFromStorepb_ids shortcut w hcv
              refine ⟨APIV2Service.newShortcut C requestShortcut, {
                  CreatorID := shortcut.CreatorId, Typ := store.ActivityShortcutCreate,
                  Level := store.ActivityInfo, Payload := payload }, hlog.symm, rfl, rfl, ?_, ?_⟩
              · exact hcr.symm
              · simp only [hid]
                exact hm

/-! ## The instruction built from a mask -/

theorem applyPath_fields (rs : apiv2pb.Shortcut) (u : store.UpdateShortcut) (p : String) :
    (APIV2Service.applyPath rs u p).ID = u.ID ∧
    (APIV2Service.applyPath rs u p).Link = (if p = "link" then some rs.Link else u.Link) ∧
    (APIV2Service.applyPath rs u p).Title = (if p = "title" then some rs.Title else u.Title) ∧
    (APIV2Service.applyPath rs u p).Description =
      (if p = "description" then some rs.Description else u.Description) ∧
    (APIV2Service.applyPath rs u p).Visibility =
      (if p = "visibility" then some rs.Visibility else u.Visibility) ∧
    (APIV2Service.applyPath rs u p).Tag =
      (if p = "tags" then some (strings.Join rs.Tags " ") else u.Tag) ∧
    (APIV2Service.applyPath rs u p).OpenGraphMetadata =
      (if p = "og_metadata" then
        (match rs.OgMetadata with
          | some og =>
            some { Title := og.Title, Description := og.Description, Image := og.Image }
          | none => u.OpenGraphMetadata)
      else u.OpenGraphMetadata) := by
  unfold APIV2Service.applyPath
  by_cases h1 : p = "link"
  · subst h1; simp
  by_cases h2 : p = "title"
  · subst h2; simp
  by_cases h3 : p = "tags"
  · subst h3; simp
  by_cases h4 : p = "description"
  · subst h4; simp
  by_cases h5 : p = "visibility"
  · subst h5; simp
  by_cases h6 : p = "og_metadata"
  · subst h6
    cases rs.OgMetadata <;> simp
  simp [h1, h2, h3, h4, h5, h6]

theorem foldl_applyPath_fields (rs : apiv2pb.Shortcut) (paths : List String)
    (u : store.UpdateShortcut) :
    (paths.foldl (APIV2Service.applyPath rs) u).ID = u.ID ∧
    (paths.foldl (APIV2Service.applyPath rs) u).Link =
      (if "link" ∈ paths then some rs.Link else u.Link) ∧
    (paths.foldl (APIV2Service.applyPath rs) u).Title =
      (if "title" ∈ paths then some rs.Title else u.Title) ∧
    (paths.foldl (APIV2Service.applyPath rs) u).Description =
      (if "description" ∈ paths then some rs.Description else u.Description) ∧
    (paths.foldl (APIV2Service.applyPath rs) u).Visibility =
      (if "visibility" ∈ paths then some rs.Visibility else u.Visibility) ∧
    (paths.foldl (APIV2Service.applyPath rs) u).Tag =
      (if "tags" ∈ paths then some (strings.Join rs.Tags " ") else u.Tag) ∧
    (paths.foldl (APIV2Service.applyPath rs) u).OpenGraphMetadata =
      (if "og_metadata" ∈ paths then
        (match rs.OgMetadata with
          | some og =>
            some { Title := og.Title, Description := og.Description, Image := og.Image }
          | none => u.OpenGraphMetadata)
      else u.OpenGraphMetadata) := by
  induction paths generalizing u with
  | nil => simp
  | cons p rest ih =>
    obtain ⟨a0, a1, a2, a3, a4, a5, a6⟩ := applyPath_fields rs u p
    obtain ⟨b0, b1, b2, b3, b4, b5, b6⟩ := ih (APIV2Service.applyPath rs u p)
    simp only [List.foldl_cons, List.mem_cons]
    refine ⟨b0.trans a0, ?_, ?_, ?_, ?_, ?_, ?_⟩
    · rw [b1, a1]
      by_cases h : "link" ∈ rest <;> by_cases hp : p = "link" <;> simp [h, hp, eq_comm]
    · rw [b2, a2]
      by_cases h : "title" ∈ rest <;> by_cases hp : p = "title" <;> simp [h, hp, eq_comm]
    · rw [b3, a3]
      by_cases h : "description" ∈ rest <;> by_cases hp : p = "description" <;>
        simp [h, hp, eq_comm]
    · rw [b4, a4]
      by_cases h : "visibility" ∈ rest <;> by_cases hp : p = "visibility" <;>
        simp [h, hp, eq_comm]
    · rw [b5, a5]
      by_cases h : "tags" ∈ rest <;> by_cases hp : p = "tags" <;> simp [h, hp, eq_comm]
    · rw [b6, a6]
      by_cases h : "og_metadata" ∈ rest <;> by_cases hp : p = "og_metadata" <;>
        cases rs.OgMetadata <;> simp [h, hp, eq_comm]

theorem buildUpdate_fields (rs : apiv2pb.Shortcut) (paths : List String) :
    (APIV2Service.buildUpdate rs paths).ID = 0 ∧
    (APIV2Service.buildUpdate rs paths).Link = (if "link" ∈ paths then some rs.Link else none) ∧
    (APIV2Service.buildUpdate rs paths).Title =
      (if "title" ∈ paths then some rs.Title else none) ∧
    (APIV2Service.buildUpdate rs paths).Description =
      (if "description" ∈ paths then some rs.Description else none) ∧
    (APIV2Service.buildUpdate rs paths).Visibility =
      (if "visibility" ∈ paths then some rs.Visibility else none) ∧
    (APIV2Service.buildUpdate rs paths).Tag =
      (if "tags" ∈ paths then some (strings.Join rs.Tags " ") else none) ∧
    (APIV2Service.buildUpdate rs paths).OpenGraphMetadata =
      (if "og_metadata" ∈ paths then
        (match rs.OgMetadata with
          | some og =>
            some { Title := og.Title, Description := og.Description, Image := og.Image }
          | none => none)
      else none) :=
  foldl_applyPath_fields rs paths {}

/-- The record a stored record becomes under the instruction built from a mask. -/
theorem apply_buildUpdate (rs : apiv2pb.Shortcut) (paths : List String) (x : storepb.Shortcut) :
    (APIV2Service.buildUpdate rs paths).apply x =
      { x with
        Link := if "link" ∈ paths then rs.Link else x.Link
        Title := if "title" ∈ paths then rs.Title else x.Title
        Description := if "description" ∈ paths then rs.Description else x.Description
        Visibility := if "visibility" ∈ paths then rs.Visibility else x.Visibility
        Tags := if "tags" ∈ paths then store.decodeTags (strings.Join rs.Tags " ") else x.Tags
        OgMetadata := if "og_metadata" ∈ paths then
            (match rs.OgMetadata with
              | some og =>
                some { Title := og.Title, Description := og.Description, Image := og.Image }
              | none => x.OgMetadata)
          else x.OgMetadata } := by
  obtain ⟨-, h1, h2, h3, h4, h5, h6⟩ := buildUpdate_fields rs paths
  simp only [store.UpdateShortcut.apply, h1, h2, h3, h4, h5, h6]
  by_cases c1 : "link" ∈ paths <;> by_cases c2 : "title" ∈ paths <;>
    by_cases c3 : "description" ∈ paths <;> by_cases c4 : "visibility" ∈ paths <;>
    by_cases c5 : "tags" ∈ paths <;> by_cases c6 : "og_metadata" ∈ paths <;>
    cases rs.OgMetadata <;> simp [c1, c2, c3, c4, c5, c6]

/-- A successful UpdateShortcut on the reference store: the store update found a
record with the id of the built instruction, and the next state is the given one with
the instruction applied to the records of that id. -/
theorem UpdateShortcut_memStore_success (st st1 : MemStore) (C : Int)
    (rs : apiv2pb.Shortcut) (mask : apiv2pb.FieldMask) (resp : apiv2pb.UpdateShortcutResponse)
    (hOk : APIV2Service.UpdateShortcut memStore st { userID := some C }
      { Shortcut := some rs, UpdateMask := some mask } = (Result.ok resp, st1)) :
    mask.Paths ≠ [] ∧
    (∃ user S, memStore.GetUser st { ID := some C } = (Except.ok user, st) ∧
      st.shortcuts.find? (store.FindShortcut.matches { Name := some rs.Name }) = some S ∧
      (S.CreatorId = C ∨ user.Role = store.RoleAdmin)) ∧
    (∃ target, st.shortcuts.find?
        (fun x => decide (x.Id = (APIV2Service.buildUpdate rs mask.Paths).ID)) = some target ∧
      convertShortcutFromStorepb ((APIV2Service.buildUpdate rs mask.Paths).apply target) =
        some resp.Shortcut) ∧
    st1 = { st with shortcuts := st.shortcuts.map (fun x =>
      if x.Id = (APIV2Service.buildUpdate rs mask.Paths).ID then
        (APIV2Service.buildUpdate rs mask.Paths).apply x else x) } := by
  by_cases hl : mask.Paths.length = 0
  · simp [APIV2Service.UpdateShortcut, hl] at hOk
  have hne : mask.Paths ≠ [] := fun h => hl (by rw [h]; rfl)
  have hsnd := MemStore_GetUser_snd st { ID := some C }
  rcases hu : memStore.GetUser st { ID := some C } with ⟨ru, stu⟩
  rw [hu] at hsnd
  simp only at hsnd
  subst hsnd
  cases ru with
  | error err => simp [APIV2Service.UpdateShortcut, hl, hu] at hOk
  | ok user =>
    have hg : memStore.GetShortcut stu { Name := some rs.Name } =
        (Except.ok (stu.shortcuts.find? (store.FindShortcut.matches { Name := some rs.Name })),
          stu) := rfl
    cases hf : stu.shortcuts.find? (store.FindShortcut.matches { Name := some rs.Name }) with
    | none => simp [APIV2Service.UpdateShortcut, hl, hu, hg, hf] at hOk
    | some S =>
      by_cases hd : S.CreatorId ≠ C ∧ user.Role ≠ store.RoleAdmin
      · simp [APIV2Service.UpdateShortcut, hl, hu, hg, hf, hd] at hOk
      · have hauth : S.CreatorId = C ∨ user.Role = store.RoleAdmin := by
          by_contra hcon
          push_neg at hcon
          exact hd hcon
        cases ht : stu.shortcuts.find?
            (fun x => decide (x.Id = (APIV2Service.buildUpdate rs mask.Paths).ID)) with
        | none =>
          have hup : memStore.UpdateShortcut stu (APIV2Service.buildUpdate rs mask.Paths) =
              (Except.error "sql: no rows in result set", stu) := by
            simp only [memStore, MemStore.UpdateShortcut, ht]
          simp [APIV2Service.UpdateShortcut, hl, hu, hg, hf, hd, hup] at hOk
        | some target =>
          have hup : memStore.UpdateShortcut stu (APIV2Service.buildUpdate rs mask.Paths) =
              (Except.ok ((APIV2Service.buildUpdate rs mask.Paths).apply target),
                { stu with shortcuts := stu.shortcuts.map (fun x =>
                    if x.Id = (APIV2Service.buildUpdate rs mask.Paths).ID then
                      (APIV2Service.buildUpdate rs mask.Paths).apply x else x) }) := by
            simp only [memStore, MemStore.UpdateShortcut, ht]
          cases hcv : convertShortcutFromStorepb
              ((APIV2Service.buildUpdate rs mask.Paths).apply target) with
          | none => simp [APIV2Service.UpdateShortcut, hl, hu, hg, hf, hd, hup, hcv] at hOk
          | some w =>
            simp only [APIV2Service.UpdateShortcut, hl, hu, hg, hf, hd, hup, hcv, if_false,
              Prod.mk.injEq, Result.ok.injEq] at hOk
            obtain ⟨hresp, hst⟩ := hOk
            subst hresp hst
            exact ⟨hne, ⟨user, S, rfl, rfl, hauth⟩, ⟨target, rfl, hcv⟩, rfl⟩

/-! ## The storage encoding of tags -/

theorem splitSpace_append_of_no_space (l : List Char) (hl : ' ' ∉ l) (cur rest : List Char) :
    store.splitSpace (l ++ rest) cur = store.splitSpace rest (l.reverse ++ cur) := by
  induction l generalizing cur with
  | nil => rfl
  | cons c cs ih =>
    have hc : c ≠ ' ' := fun h => hl (by rw [h]; exact List.mem_cons_self _ _)
    have hcs : ' ' ∉ cs := fun h => hl (List.mem_cons_of_mem _ h)
    simp only [List.cons_append, store.splitSpace, hc, if_false, List.reverse_cons,
      List.append_assoc, List.singleton_append]
    exact ih hcs (c :: cur)

theorem splitSpace_Join (tags : List String) (hTags : ∀ t ∈ tags, ' ' ∉ t.data) :
    store.splitSpace (strings.Join tags " ").data [] = if tags = [] then [""] else tags := by
  induction tags with
  | nil => rfl
  | cons a rest ih =>
    have ha : ' ' ∉ a.data := hTags a (List.mem_cons_self _ _)
    cases rest with
    | nil =>
      have := splitSpace_append_of_no_space a.data ha [] []
      simp only [List.append_nil] at this
      simp only [strings.Join, this, store.splitSpace, List.reverse_reverse]
      simp
    | cons b rest2 =>
      have ih2 := ih (fun t ht => hTags t (List.mem_cons_of_mem _ ht))
      simp only [reduceCtorEq, if_false] at ih2
      have := splitSpace_append_of_no_space a.data ha [] (' ' :: (strings.Join (b :: rest2) " ").data)
      simp only [strings.Join, String.data_append, List.append_assoc, reduceCtorEq, if_false]
      rw [List.singleton_append, this]
      simp only [List.append_nil, store.splitSpace, if_true, List.reverse_reverse, ih2]

/-- Tags without spaces that are not empty survive the storage encoding. -/
theorem decodeTags_Join (tags : List String)
    (hTags : ∀ t ∈ tags, t ≠ "" ∧ ' ' ∉ t.data) :
    store.decodeTags (strings.Join tags " ") = tags := by
  unfold store.decodeTags
  rw [splitSpace_Join tags (fun t ht => (hTags t ht).2)]
  by_cases h : tags = []
  · subst h
    simp
  · simp only [h, if_false]
    rw [List.filter_eq_self]
    intro t ht
    simpa using (hTags t ht).1

/-! ## Facts about DeleteShortcut on the reference store -/

/-- A successful DeleteShortcut on the reference store: the caller has a user record,
the name resolves to a stored shortcut the caller may delete, and the next state is
the given one without the records carrying the id of that shortcut. -/
theorem DeleteShortcut_memStore_success (st st1 : MemStore) (C : Int) (name : String)
    (resp : apiv2pb.DeleteShortcutResponse)
    (hOk : APIV2Service.DeleteShortcut memStore st { userID := some C } { Name := name } =
      (Result.ok resp, st1)) :
    ∃ user S, memStore.GetUser st { ID := some C } = (Except.ok user, st) ∧
      st.shortcuts.find? (store.FindShortcut.matches { Name := some name }) = some S ∧
      (S.CreatorId = C ∨ user.Role = store.RoleAdmin) ∧
      st1 = { st with shortcuts := st.shortcuts.filter (fun x => decide (x.Id ≠ S.Id)) } := by
  have hsnd := MemStore_GetUser_snd st { ID := some C }
  rcases hu : memStore.GetUser st { ID := some C } with ⟨ru, stu⟩
  rw [hu] at hsnd
  simp only at hsnd
  subst hsnd
  cases ru with
  | error err => simp [APIV2Service.DeleteShortcut, hu] at hOk
  | ok user =>
    have hg : memStore.GetShortcut stu { Name := some name } =
        (Except.ok (stu.shortcuts.find? (store.FindShortcut.matches { Name := some name })),
          stu) := rfl
    cases hf : stu.shortcuts.find? (store.FindShortcut.matches { Name := some name }) with
    | none => simp [APIV2Service.DeleteShortcut, hu, hg, hf] at hOk
    | some S =>
      by_cases hd : S.CreatorId ≠ C ∧ user.Role ≠ store.RoleAdmin
      · simp [APIV2Service.DeleteShortcut, hu, hg, hf, hd] at hOk
      · have hauth : S.CreatorId = C ∨ user.Role = store.RoleAdmin := by
          by_contra hcon
          push_neg at hcon
          exact hd hcon
        have hdel : memStore.DeleteShortcut stu { ID := S.Id } =
            (Except.ok (),
              { stu with shortcuts := stu.shortcuts.filter (fun x => decide (x.Id ≠ S.Id)) }) :=
          rfl
        simp only [APIV2Service.DeleteShortcut, hu, hg, hf, hd, hdel, if_false, Prod.mk.injEq,
          Result.ok.injEq] at hOk
        exact ⟨user, S, rfl, rfl, hauth, hOk.2.symm⟩

/-! ## Facts about an authorized UpdateShortcut -/

/-- An authorized UpdateShortcut with a non-empty mask hands the built instruction to
the store and passes the answer on. -/
theorem UpdateShortcut_authorized_run {σ : Type} (s : Store σ) (st st1 st2 : σ) (C : Int)
    (user : store.User) (S : storepb.Shortcut) (rs : apiv2pb.Shortcut)
    (mask : apiv2pb.FieldMask)
    (hMask : mask.Paths ≠ [])
    (hUser : s.GetUser st { ID := some C } = (Except.ok user, st1))
    (hGet : s.GetShortcut st1 { Name := some rs.Name } = (Except.ok (some S), st2))
    (hAuth : S.CreatorId = C ∨ user.Role = store.RoleAdmin) :
    APIV2Service.UpdateShortcut s st { userID := some C }
        { Shortcut := some rs, UpdateMask := some mask } =
      (match s.UpdateShortcut st2 (APIV2Service.buildUpdate rs mask.Paths) with
        | (Except.error err, st3) =>
          (Result.status codes.Internal ("failed to update shortcut, err: " ++ err), st3)
        | (Except.ok updated, st3) =>
          match convertShortcutFromStorepb updated with
          | none => (Result.panicked, st3)
          | some m => (Result.ok { Shortcut := m }, st3)) := by
  have hlen : mask.Paths.length ≠ 0 := fun h => hMask (List.length_eq_zero.mp h)
  have hd : ¬ (S.CreatorId ≠ C ∧ user.Role ≠ store.RoleAdmin) := by
    rintro ⟨h1, h2⟩
    rcases hAuth with h | h
    · exact h1 h
    · exact h2 h
  simp only [APIV2Service.UpdateShortcut, hlen, if_false, hUser, hGet, hd]

/-- The calls an authorized UpdateShortcut with a non-empty mask issues. -/
theorem UpdateShortcut_authorized_log {σ : Type} (s : Store σ) (st st1 st2 : σ) (C : Int)
    (user : store.User) (S : storepb.Shortcut) (rs : apiv2pb.Shortcut)
    (mask : apiv2pb.FieldMask)
    (hMask : mask.Paths ≠ [])
    (hUser : s.GetUser st { ID := some C } = (Except.ok user, st1))
    (hGet : s.GetShortcut st1 { Name := some rs.Name } = (Except.ok (some S), st2))
    (hAuth : S.CreatorId = C ∨ user.Role = store.RoleAdmin) (log : List StoreCall) :
    (APIV2Service.UpdateShortcut s.logged (st, log) { userID := some C }
        { Shortcut := some rs, UpdateMask := some mask }).2.2 =
      log ++ [StoreCall.GetUser { ID := some C }, StoreCall.GetShortcut { Name := some rs.Name },
        StoreCall.UpdateShortcut (APIV2Service.buildUpdate rs mask.Paths)] := by
  have hlen : mask.Paths.length ≠ 0 := fun h => hMask (List.length_eq_zero.mp h)
  have hd : ¬ (S.CreatorId ≠ C ∧ user.Role ≠ store.RoleAdmin) := by
    rintro ⟨h1, h2⟩
    rcases hAuth with h | h
    · exact h1 h
    · exact h2 h
  rcases hup : s.UpdateShortcut st2 (APIV2Service.buildUpdate rs mask.Paths) with ⟨rup, st3⟩
  cases rup with
  | error err => simp [APIV2Service.UpdateShortcut, Store.logged, hlen, hUser, hGet, hd, hup]
  | ok updated =>
    cases hcv : convertShortcutFromStorepb updated <;>
      simp [APIV2Service.UpdateShortcut, Store.logged, hlen, hUser, hGet, hd, hup, hcv]

/-! ## Facts about ListShortcuts -/

theorem convertAll_map (l : List storepb.Shortcut) (ws : List apiv2pb.Shortcut)
    (h : convertAll l = some ws) :
    ws.map some = l.map convertShortcutFromStorepb ∧ ws.length = l.length := by
  induction l generalizing ws with
  | nil =>
    simp only [convertAll, Option.some.injEq] at h
    subst h
    exact ⟨rfl, rfl⟩
  | cons a rest ih =>
    simp only [convertAll] at h
    cases ha : convertShortcutFromStorepb a with
    | none => simp [ha] at h
    | some m =>
      cases hr : convertAll rest with
      | none => simp [ha, hr] at h
      | some ms =>
        simp only [ha, hr, Option.some.injEq] at h
        subst h
        obtain ⟨h1, h2⟩ := ih ms hr
        simp [h1, h2, ha]

/-- ListShortcuts after two successful store calls: the mapper runs over the private
answer followed by the visible answer. -/
theorem ListShortcuts_run {σ : Type} (s : Store σ) (st st1 st2 : σ) (C : Int)
    (V P : List storepb.Shortcut) (request : apiv2pb.ListShortcutsRequest)
    (hV : s.ListShortcuts st
      { VisibilityList := [store.VisibilityWorkspace, store.VisibilityPublic] } =
      (Except.ok V, st1))
    (hP : s.ListShortcuts st1
      { CreatorID := some C, VisibilityList := [store.VisibilityPrivate] } =
      (Except.ok P, st2)) :
    APIV2Service.ListShortcuts s st { userID := some C } request =
      (match convertAll (P ++ V) with
        | none => (Result.panicked, st2)
        | some shortcuts => (Result.ok { Shortcuts := shortcuts }, st2)) := by
  simp only [APIV2Service.ListShortcuts, hV, hP]

theorem mem_private_append_visible (l : List storepb.Shortcut) (C : Int)
    (x : storepb.Shortcut) :
    x ∈ l.filter (store.FindShortcut.matches
        { CreatorID := some C, VisibilityList := [store.VisibilityPrivate] }) ++
      l.filter (store.FindShortcut.matches
        { VisibilityList := [store.VisibilityWorkspace, store.VisibilityPublic] }) ↔
    x ∈ l ∧ (x.Visibility = storepb.Visibility_WORKSPACE ∨
      x.Visibility = storepb.Visibility_PUBLIC ∨
      (x.Visibility = storepb.Visibility_PRIVATE ∧ x.CreatorId = C)) := by
  simp only [List.mem_append, List.mem_filter, store.FindShortcut.matches,
    store.VisibilityPrivate, store.VisibilityWorkspace, store.VisibilityPublic,
    storepb.Visibility_WORKSPACE, storepb.Visibility_PUBLIC, storepb.Visibility_PRIVATE]
  simp
  tauto

/-- On a store that answers ListShortcuts with the stored shortcuts matching the
filter, a response of ListShortcuts holds the wire image of a record exactly when the
record is stored and visible to the caller. -/
theorem ListShortcuts_response_mem {σ : Type} (s : Store σ)
    (stored : σ → List storepb.Shortcut)
    (hList : ∀ st find, ∃ st1,
      s.ListShortcuts st find = (Except.ok ((stored st).filter find.matches), st1) ∧
      stored st1 = stored st)
    (st st2 : σ) (C : Int) (request : apiv2pb.ListShortcutsRequest)
    (resp : apiv2pb.ListShortcutsResponse)
    (hres : APIV2Service.ListShortcuts s st { userID := some C } request = (Result.ok resp, st2))
    (S : storepb.Shortcut) :
    (∃ w, convertShortcutFromStorepb S = some w ∧ w ∈ resp.Shortcuts) ↔
      (S ∈ stored st ∧ (S.Visibility = storepb.Visibility_WORKSPACE ∨
        S.Visibility = storepb.Visibility_PUBLIC ∨
        (S.Visibility = storepb.Visibility_PRIVATE ∧ S.CreatorId = C))) := by
  obtain ⟨st1, h1, hs1⟩ := hList st
    { VisibilityList := [store.VisibilityWorkspace, store.VisibilityPublic] }
  obtain ⟨st2', h2, -⟩ := hList st1
    { CreatorID := some C, VisibilityList := [store.VisibilityPrivate] }
  rw [hs1] at h2
  rw [ListShortcuts_run s st st1 st2' C _ _ request h1 h2] at hres
  cases hc : convertAll ((stored st).filter (store.FindShortcut.matches
      { CreatorID := some C, VisibilityList := [store.VisibilityPrivate] }) ++
    (stored st).filter (store.FindShortcut.matches
      { VisibilityList := [store.VisibilityWorkspace, store.VisibilityPublic] })) with
  | none => simp [hc] at hres
  | some ws =>
    simp only [hc, Prod.mk.injEq, Result.ok.injEq] at hres
    obtain ⟨hresp, -⟩ := hres
    subst hresp
    simp only
    constructor
    · rintro ⟨w, hw, hmem⟩
      obtain ⟨x, hx, hxw⟩ := (convertAll_mem _ _ hc w).mp hmem
      have : x = S := convertShortcutFromStorepb_injective x S w hxw hw
      subst this
      exact (mem_private_append_visible _ C x).mp hx
    · intro hvis
      have hin := (mem_private_append_visible _ C S).mpr hvis
      have hne : S.OgMetadata ≠ none := convertAll_none_mem _ (by rw [hc]; simp) S hin
      cases hog : convertShortcutFromStorepb S with
      | none =>
        simp only [convertShortcutFromStorepb] at hog
        cases hm : S.OgMetadata with
        | none => exact absurd hm hne
        | some og => simp [hm] at hog
      | some w => exact ⟨w, rfl, (convertAll_mem _ _ hc w).mpr ⟨S, hin, hog⟩⟩

/-! ## Facts about repeating an update on the reference store -/

theorem UpdateShortcut_apply_idem (u : store.UpdateShortcut) (x : storepb.Shortcut) :
    u.apply (u.apply x) = u.apply x := by
  rcases u with ⟨id, l, t, d, v, tg, og⟩
  cases l <;> cases t <;> cases d <;> cases v <;> cases tg <;> cases og <;> rfl

theorem UpdateShortcut_apply_keeps (u : store.UpdateShortcut) (x : storepb.Shortcut) :
    (u.apply x).Id = x.Id ∧ (u.apply x).CreatorId = x.CreatorId ∧ (u.apply x).Name = x.Name :=
  ⟨rfl, rfl, rfl⟩

/-- The step of the store update on one record. -/
theorem update_step_keeps (u : store.UpdateShortcut) (x : storepb.Shortcut) :
    (if x.Id = u.ID then u.apply x else x).Id = x.Id ∧
    (if x.Id = u.ID then u.apply x else x).CreatorId = x.CreatorId ∧
    (if x.Id = u.ID then u.apply x else x).Name = x.Name := by
  by_cases h : x.Id = u.ID <;> simp [h, UpdateShortcut_apply_keeps]

theorem find_name_map_step (u : store.UpdateShortcut) (l : List storepb.Shortcut)
    (name : String) :
    (l.map (fun x => if x.Id = u.ID then u.apply x else x)).find?
        (store.FindShortcut.matches { Name := some name }) =
      (l.find? (store.FindShortcut.matches { Name := some name })).map
        (fun x => if x.Id = u.ID then u.apply x else x) := by
  rw [List.find?_map]
  congr 2
  funext x
  simp [store.FindShortcut.matches, (update_step_keeps u x).2.2]

theorem find_id_map_step (u : store.UpdateShortcut) (l : List storepb.Shortcut) :
    (l.map (fun x => if x.Id = u.ID then u.apply x else x)).find?
        (fun x => decide (x.Id = u.ID)) =
      (l.find? (fun x => decide (x.Id = u.ID))).map
        (fun x => if x.Id = u.ID then u.apply x else x) := by
  rw [List.find?_map]
  congr 2
  funext x
  simp [(update_step_keeps u x).1]

theorem MemStore_GetUser_of_users (st st' : MemStore) (find : store.FindUser)
    (user : store.User) (hUsers : st'.users = st.users)
    (h : memStore.GetUser st find = (Except.ok user, st)) :
    memStore.GetUser st' find = (Except.ok user, st') := by
  simp only [memStore, MemStore.GetUser] at h ⊢
  rw [hUsers]
  cases hf : st.users.find? (fun u => decide (some u.ID = find.ID)) with
  | none => simp [hf] at h
  | some found =>
    simp only [hf, Prod.mk.injEq, Except.ok.injEq] at h
    simp [h.1]

/-- UpdateShortcut on the reference store either hands back the state it was given,
or it ran the store update: then the caller has a user record, the name resolves to
a shortcut the caller may update, and a record carries the id of the instruction. -/
theorem UpdateShortcut_memStore_cases (st : MemStore) (ctx : Context)
    (request : apiv2pb.UpdateShortcutRequest) :
    (APIV2Service.UpdateShortcut memStore st ctx request).2 = st ∨
    ∃ C rs mask user S target,
      ctx = { userID := some C } ∧
      request = { Shortcut := some rs, UpdateMask := some mask } ∧
      mask.Paths ≠ [] ∧
      memStore.GetUser st { ID := some C } = (Except.ok user, st) ∧
      st.shortcuts.find? (store.FindShortcut.matches { Name := some rs.Name }) = some S ∧
      (S.CreatorId = C ∨ user.Role = store.RoleAdmin) ∧
      st.shortcuts.find?
        (fun x => decide (x.Id = (APIV2Service.buildUpdate rs mask.Paths).ID)) = some target := by
  rcases UpdateShortcut_state_cases memStore st ctx request
    with h | ⟨C, hC, h | ⟨rs, hrs, h | ⟨mask, hmask, h⟩⟩⟩
  · exact Or.inl h
  · left
    rw [h, MemStore_GetUser_snd]
  · left
    rw [h, MemStore_GetShortcut_snd, MemStore_GetUser_snd]
  · rw [MemStore_GetShortcut_snd, MemStore_GetUser_snd] at h
    have hctx : ctx = { userID := some C } := by
      cases ctx
      simp only at hC
      subst hC
      rfl
    have hreq : request = { Shortcut := some rs, UpdateMask := some mask } := by
      cases request
      simp only at hrs hmask
      subst hrs hmask
      rfl
    subst hctx hreq
    by_cases hl : mask.Paths.length = 0
    · left
      simp [APIV2Service.UpdateShortcut, hl]
    have hne : mask.Paths ≠ [] := fun h0 => hl (by rw [h0]; rfl)
    have hsnd := MemStore_GetUser_snd st { ID := some C }
    rcases hu : memStore.GetUser st { ID := some C } with ⟨ru, stu⟩
    rw [hu] at hsnd
    simp only at hsnd
    subst hsnd
    cases ru with
    | error err =>
      left
      simp [APIV2Service.UpdateShortcut, hl, hu]
    | ok user =>
      have hg : memStore.GetShortcut stu { Name := some rs.Name } =
          (Except.ok (stu.shortcuts.find? (store.FindShortcut.matches { Name := some rs.Name })),
            stu) := rfl
      cases hf : stu.shortcuts.find? (store.FindShortcut.matches { Name := some rs.Name }) with
      | none =>
        left
        simp [APIV2Service.UpdateShortcut, hl, hu, hg, hf]
      | some S =>
        by_cases hd : S.CreatorId ≠ C ∧ user.Role ≠ store.RoleAdmin
        · left
          simp [APIV2Service.UpdateShortcut, hl, hu, hg, hf, hd]
        · have hauth : S.CreatorId = C ∨ user.Role = store.RoleAdmin := by
            by_contra hcon
            push_neg at hcon
            exact hd hcon
          cases ht : stu.shortcuts.find?
              (fun x => decide (x.Id = (APIV2Service.buildUpdate rs mask.Paths).ID)) with
          | none =>
            left
            have hup : memStore.UpdateShortcut stu (APIV2Service.buildUpdate rs mask.Paths) =
                (Except.error "sql: no rows in result set", stu) := by
              simp only [memStore, MemStore.UpdateShortcut, ht]
            rw [h, hup]
          | some target =>
            right
            exact ⟨C, rs, mask, user, S, target, rfl, rfl, hne, hu, hf, hauth, ht⟩

/-! ## Relations kept by DeleteShortcut and CreateShortcut -/

theorem DeleteShortcut_rel {σ : Type} (s : Store σ) (R : σ → σ → Prop)
    (hrefl : ∀ a, R a a) (htrans : ∀ a b c, R a b → R b c → R a c)
    (hUser : ∀ st find, R st (s.GetUser st find).2)
    (hGet : ∀ st find, R st (s.GetShortcut st find).2)
    (hDelete : ∀ st delete, R st (s.DeleteShortcut st delete).2)
    (st : σ) (ctx : Context) (request : apiv2pb.DeleteShortcutRequest) :
    R st (APIV2Service.DeleteShortcut s st ctx request).2 := by
  cases hc : ctx.userID with
  | none => simpa [APIV2Service.DeleteShortcut, hc] using hrefl st
  | some C =>
    have h1 := hUser st { ID := some C }
    rcases hu : s.GetUser st { ID := some C } with ⟨ru, st1⟩
    rw [hu] at h1
    cases ru with
    | error err => simpa [APIV2Service.DeleteShortcut, hc, hu] using h1
    | ok user =>
      have h2 := hGet st1 { Name := some request.Name }
      rcases hg : s.GetShortcut st1 { Name := some request.Name } with ⟨rg, st2⟩
      rw [hg] at h2
      have h3 : R st st2 := htrans _ _ _ h1 h2
      cases rg with
      | error err => simpa [APIV2Service.DeleteShortcut, hc, hu, hg] using h3
      | ok found =>
        cases found with
        | none => simpa [APIV2Service.DeleteShortcut, hc, hu, hg] using h3
        | some shortcut =>
          by_cases hd : shortcut.CreatorId ≠ C ∧ user.Role ≠ store.RoleAdmin
          · simpa [APIV2Service.DeleteShortcut, hc, hu, hg, hd] using h3
          · have h4 := hDelete st2 { ID := shortcut.Id }
            rcases hdel : s.DeleteShortcut st2 { ID := shortcut.Id } with ⟨rd, st3⟩
            rw [hdel] at h4
            have h5 : R st st3 := htrans _ _ _ h3 h4
            cases rd <;> simpa [APIV2Service.DeleteShortcut, hc, hu, hg, hd, hdel] using h5

theorem CreateShortcut_rel {σ : Type}
    (marshal : storepb.ActivityShorcutCreatePayload → Except String String)
    (s : Store σ) (R : σ → σ → Prop)
    (hrefl : ∀ a, R a a) (htrans : ∀ a b c, R a b → R b c → R a c)
    (hCreate : ∀ st create, R st (s.CreateShortcut st create).2)
    (hActivity : ∀ st create, R st (s.CreateActivity st create).2)
    (st : σ) (ctx : Context) (request : apiv2pb.CreateShortcutRequest) :
    R st (APIV2Service.CreateShortcut marshal s st ctx request).2 := by
  cases hc : ctx.userID with
  | none => simpa [APIV2Service.CreateShortcut, hc] using hrefl st
  | some C =>
    cases hs : request.Shortcut with
    | none => simpa [APIV2Service.CreateShortcut, hc, hs] using hrefl st
    | some rs =>
      have h1 := hCreate st (APIV2Service.newShortcut C rs)
      rcases hcs : s.CreateShortcut st (APIV2Service.newShortcut C rs) with ⟨rc, st1⟩
      rw [hcs] at h1
      cases rc with
      | error err => simpa [APIV2Service.CreateShortcut, hc, hs, hcs] using h1
      | ok shortcut =>
        cases hm : marshal { ShortcutId := shortcut.Id } with
        | error err =>
          simpa [APIV2Service.CreateShortcut, hc, hs, hcs,
            APIV2Service.createShortcutCreateActivity, hm] using h1
        | ok payload =>
          have h2 := hActivity st1 {
            CreatorID := shortcut.CreatorId, Typ := store.ActivityShortcutCreate,
            Level := store.ActivityInfo, Payload := payload }
          rcases hca : s.CreateActivity st1 {
            CreatorID := shortcut.CreatorId, Typ := store.ActivityShortcutCreate,
            Level := store.ActivityInfo, Payload := payload } with ⟨ra, st2⟩
          rw [hca] at h2
          have h3 : R st st2 := htrans _ _ _ h1 h2
          cases ra with
          | error err =>
            simpa [APIV2Service.CreateShortcut, hc, hs, hcs,
              APIV2Service.createShortcutCreateActivity, hm, hca] using h3
          | ok activity =>
            cases hcv : convertShortcutFromStorepb shortcut <;>
              simpa [APIV2Service.CreateShortcut, hc, hs, hcs,
                APIV2Service.createShortcutCreateActivity, hm, hca, hcv] using h3

/-! # Properties of the handlers -/

/-! ## C1 -/

/-- C1. Assume the store answers ListShortcuts with exactly the stored shortcuts
matching the filter (and leaves the stored shortcuts as they are), so that both
store calls succeed. Then for every state, caller C and stored shortcut S: in every
response of ListShortcuts for C the wire image of S appears if and only if S is
WORKSPACE or PUBLIC, or S is PRIVATE and created by C; and ListShortcuts does return
a response as soon as the stored records carry their metadata object. -/
theorem ListShortcuts_visible_iff {σ : Type} (s : Store σ)
    (stored : σ → List storepb.Shortcut)
    (hList : ∀ st find, ∃ st1,
      s.ListShortcuts st find = (Except.ok ((stored st).filter find.matches), st1) ∧
      stored st1 = stored st)
    (st : σ) (C : Int) (S : storepb.Shortcut) (hS : S ∈ stored st) :
    (∀ resp st2,
      APIV2Service.ListShortcuts s st { userID := some C } {} = (Result.ok resp, st2) →
      ((∃ w, convertShortcutFromStorepb S = some w ∧ w ∈ resp.Shortcuts) ↔
        (S.Visibility = storepb.Visibility_WORKSPACE ∨ S.Visibility = storepb.Visibility_PUBLIC ∨
          (S.Visibility = storepb.Visibility_PRIVATE ∧ S.CreatorId = C)))) ∧
    ((∀ x ∈ stored st, x.OgMetadata ≠ none) →
      ∃ resp st2,
        APIV2Service.ListShortcuts s st { userID := some C } {} = (Result.ok resp, st2)) := by
  obtain ⟨st1, h1, hs1⟩ := hList st
    { VisibilityList := [store.VisibilityWorkspace, store.VisibilityPublic] }
  obtain ⟨st2, h2, -⟩ := hList st1
    { CreatorID := some C, VisibilityList := [store.VisibilityPrivate] }
  rw [hs1] at h2
  have hmemList : ∀ x, x ∈ (stored st).filter (store.FindShortcut.matches
        { CreatorID := some C, VisibilityList := [store.VisibilityPrivate] }) ++
      (stored st).filter (store.FindShortcut.matches
        { VisibilityList := [store.VisibilityWorkspace, store.VisibilityPublic] }) ↔
      x ∈ stored st ∧ (x.Visibility = storepb.Visibility_WORKSPACE ∨
        x.Visibility = storepb.Visibility_PUBLIC ∨
        (x.Visibility = storepb.Visibility_PRIVATE ∧ x.CreatorId = C)) := by
    intro x
    simp only [List.mem_append, List.mem_filter, store.FindShortcut.matches,
      store.VisibilityPrivate, store.VisibilityWorkspace, store.VisibilityPublic,
      storepb.Visibility_WORKSPACE, storepb.Visibility_PUBLIC, storepb.Visibility_PRIVATE]
    simp
    tauto
  constructor
  · intro resp st2' hres
    simp only [APIV2Service.ListShortcuts, h1, h2] at hres
    cases hc : convertAll ((stored st).filter (store.FindShortcut.matches
        { CreatorID := some C, VisibilityList := [store.VisibilityPrivate] }) ++
      (stored st).filter (store.FindShortcut.matches
        { VisibilityList := [store.VisibilityWorkspace, store.VisibilityPublic] })) with
    | none => simp [hc] at hres
    | some ws =>
      simp only [hc, Prod.mk.injEq, Result.ok.injEq] at hres
      obtain ⟨hresp, -⟩ := hres
      subst hresp
      simp only
      constructor
      · rintro ⟨w, hw, hmem⟩
        obtain ⟨x, hx, hxw⟩ := (convertAll_mem _ _ hc w).mp hmem
        have : x = S := convertShortcutFromStorepb_injective x S w hxw hw
        subst this
        exact ((hmemList x).mp hx).2
      · intro hvis
        have hin := (hmemList S).mpr ⟨hS, hvis⟩
        have hne : S.OgMetadata ≠ none :=
          convertAll_none_mem _ (by rw [hc]; simp) S hin
        cases hog : convertShortcutFromStorepb S with
        | none =>
          simp only [convertShortcutFromStorepb] at hog
          cases hm : S.OgMetadata with
          | none => exact absurd hm hne
          | some og => simp [hm] at hog
        | some w => exact ⟨w, rfl, (convertAll_mem _ _ hc w).mpr ⟨S, hin, hog⟩⟩
  · intro hmeta
    obtain ⟨ws, hws⟩ := convertAll_isSome ((stored st).filter (store.FindShortcut.matches
        { CreatorID := some C, VisibilityList := [store.VisibilityPrivate] }) ++
      (stored st).filter (store.FindShortcut.matches
        { VisibilityList := [store.VisibilityWorkspace, store.VisibilityPublic] }))
      (fun x hx => hmeta x ((hmemList x).mp hx).1)
    refine ⟨{ Shortcuts := ws }, st2, ?_⟩
    simp only [APIV2Service.ListShortcuts, h1, h2, hws]

/-- Witness of C1 on the reference store: the workspace shortcut of user 9. -/
theorem ListShortcuts_visible_iff_witness :
    (∀ resp st2,
      APIV2Service.ListShortcuts memStore Sample.state { userID := some 9 } {} =
        (Result.ok resp, st2) →
      ((∃ w, convertShortcutFromStorepb Sample.wikiShortcut = some w ∧ w ∈ resp.Shortcuts) ↔
        (Sample.wikiShortcut.Visibility = storepb.Visibility_WORKSPACE ∨
          Sample.wikiShortcut.Visibility = storepb.Visibility_PUBLIC ∨
          (Sample.wikiShortcut.Visibility = storepb.Visibility_PRIVATE ∧
            Sample.wikiShortcut.CreatorId = 9)))) ∧
    ((∀ x ∈ Sample.state.shortcuts, x.OgMetadata ≠ none) →
      ∃ resp st2,
        APIV2Service.ListShortcuts memStore Sample.state { userID := some 9 } {} =
          (Result.ok resp, st2)) :=
  ListShortcuts_visible_iff memStore MemStore.shortcuts (fun st _ => ⟨st, rfl, rfl⟩)
    Sample.state 9 Sample.wikiShortcut (by decide)

/-! ## C2 -/

/-- C2. When the lookup by name finds a PRIVATE shortcut whose creator is not the
caller C, GetShortcut returns the PermissionDenied status and no response, and the
only store call made is the lookup: the outcome is the same whatever GetUser
would answer, that is whatever the role of the caller. -/
theorem GetShortcut_private_not_owner_denied {σ : Type} (s : Store σ) (st st1 : σ) (C : Int)
    (name : String) (S : storepb.Shortcut)
    (hGet : s.GetShortcut st { Name := some name } = (Except.ok (some S), st1))
    (hPrivate : S.Visibility = storepb.Visibility_PRIVATE) (hOther : S.CreatorId ≠ C) :
    APIV2Service.GetShortcut s st { userID := some C } { Name := name } =
      (Result.status codes.PermissionDenied "Permission denied", st1) ∧
    ∀ getUser, APIV2Service.GetShortcut { s with GetUser := getUser } st { userID := some C }
      { Name := name } = (Result.status codes.PermissionDenied "Permission denied", st1) := by
  constructor
  · simp [APIV2Service.GetShortcut, hGet, hPrivate, hOther]
  · intro getUser
    simp [APIV2Service.GetShortcut, hGet, hPrivate, hOther]

/-- Witness of C2 on the reference store: user 9 asks for the private shortcut of
user 7. -/
theorem GetShortcut_private_not_owner_denied_witness :
    APIV2Service.GetShortcut memStore Sample.state { userID := some 9 } { Name := "go" } =
      (Result.status codes.PermissionDenied "Permission denied", Sample.state) ∧
    ∀ getUser, APIV2Service.GetShortcut { memStore with GetUser := getUser } Sample.state
      { userID := some 9 } { Name := "go" } =
      (Result.status codes.PermissionDenied "Permission denied", Sample.state) :=
  GetShortcut_private_not_owner_denied memStore Sample.state Sample.state 9 "go"
    Sample.goShortcut rfl (by decide) (by decide)

/-! ## C3 -/

/-- C3. For a caller C whose user record has a role other than ADMIN and a stored
shortcut S, found by name, whose creator is not C: UpdateShortcut with a non-empty
mask and DeleteShortcut both return PermissionDenied; the store is left in the
state reached after the two lookups (GetUser, GetShortcut), whatever the store
operations UpdateShortcut and DeleteShortcut would do; the log of the logging store
gains exactly the two lookups; and the stored shortcuts, which lookups do not
change, are the same as before. -/
theorem UpdateShortcut_DeleteShortcut_denied {σ : Type} (s : Store σ) (st st1 st2 : σ)
    (C : Int) (user : store.User) (S : storepb.Shortcut) (requestShortcut : apiv2pb.Shortcut)
    (mask : apiv2pb.FieldMask) (stored : σ → List storepb.Shortcut)
    (hMask : mask.Paths ≠ [])
    (hUser : s.GetUser st { ID := some C } = (Except.ok user, st1))
    (hRole : user.Role ≠ store.RoleAdmin)
    (hGet : s.GetShortcut st1 { Name := some requestShortcut.Name } = (Except.ok (some S), st2))
    (hOther : S.CreatorId ≠ C)
    (hReadUser : ∀ st0 find, stored (s.GetUser st0 find).2 = stored st0)
    (hReadShortcut : ∀ st0 find, stored (s.GetShortcut st0 find).2 = stored st0) :
    (∀ update delete,
      APIV2Service.UpdateShortcut { s with UpdateShortcut := update, DeleteShortcut := delete }
        st { userID := some C } { Shortcut := some requestShortcut, UpdateMask := some mask } =
        (Result.status codes.PermissionDenied "Permission denied", st2) ∧
      APIV2Service.DeleteShortcut { s with UpdateShortcut := update, DeleteShortcut := delete }
        st { userID := some C } { Name := requestShortcut.Name } =
        (Result.status codes.PermissionDenied "Permission denied", st2)) ∧
    APIV2Service.UpdateShortcut s st { userID := some C }
        { Shortcut := some requestShortcut, UpdateMask := some mask } =
      (Result.status codes.PermissionDenied "Permission denied", st2) ∧
    APIV2Service.DeleteShortcut s st { userID := some C } { Name := requestShortcut.Name } =
      (Result.status codes.PermissionDenied "Permission denied", st2) ∧
    (∀ log, (APIV2Service.UpdateShortcut s.logged (st, log) { userID := some C }
        { Shortcut := some requestShortcut, UpdateMask := some mask }).2.2 =
      log ++ [StoreCall.GetUser { ID := some C },
        StoreCall.GetShortcut { Name := some requestShortcut.Name }]) ∧
    (∀ log, (APIV2Service.DeleteShortcut s.logged (st, log) { userID := some C }
        { Name := requestShortcut.Name }).2.2 =
      log ++ [StoreCall.GetUser { ID := some C },
        StoreCall.GetShortcut { Name := some requestShortcut.Name }]) ∧
    stored st2 = stored st := by
  have hlen : mask.Paths.length ≠ 0 := by
    intro h
    exact hMask (List.length_eq_zero.mp h)
  refine ⟨?_, ?_, ?_, ?_, ?_, ?_⟩
  · intro update delete
    constructor
    · simp [APIV2Service.UpdateShortcut, hlen, hUser, hGet, hRole, hOther]
    · simp [APIV2Service.DeleteShortcut, hUser, hGet, hRole, hOther]
  · simp [APIV2Service.UpdateShortcut, hlen, hUser, hGet, hRole, hOther]
  · simp [APIV2Service.DeleteShortcut, hUser, hGet, hRole, hOther]
  · intro log
    simp [APIV2Service.UpdateShortcut, Store.logged, hlen, hUser, hGet, hRole, hOther]
  · intro log
    simp [APIV2Service.DeleteShortcut, Store.logged, hUser, hGet, hRole, hOther]
  · have h1 := hReadUser st { ID := some C }
    have h2 := hReadShortcut st1 { Name := some requestShortcut.Name }
    rw [hUser] at h1
    rw [hGet] at h2
    exact h2.trans h1

/-- Witness of C3 on the reference store: user 9, a plain user, tries to update and
to delete the shortcut of user 7. -/
theorem UpdateShortcut_DeleteShortcut_denied_witness :
    APIV2Service.UpdateShortcut memStore Sample.state { userID := some 9 }
        { Shortcut := some Sample.goPatch, UpdateMask := some { Paths := ["link"] } } =
      (Result.status codes.PermissionDenied "Permission denied", Sample.state) ∧
    APIV2Service.DeleteShortcut memStore Sample.state { userID := some 9 } { Name := "go" } =
      (Result.status codes.PermissionDenied "Permission denied", Sample.state) :=
  have h := UpdateShortcut_DeleteShortcut_denied memStore Sample.state Sample.state Sample.state
    9 { ID := 9, Role := store.RoleUser } Sample.goShortcut Sample.goPatch { Paths := ["link"] }
    MemStore.shortcuts (by decide) rfl (by decide) rfl (by decide)
    (fun st0 find => by
      simp only [memStore, MemStore.GetUser]
      cases st0.users.find? (fun u => decide (some u.ID = find.ID)) <;> rfl)
    (fun _ _ => rfl)
  ⟨h.2.1, h.2.2.1⟩

/-! ## C4 -/

/-- C4, as stated, fails. On the reference store the creator of the shortcut zero,
the record the store update reaches, sends a successful UpdateShortcut naming it
with mask og_metadata, tags: the request carries no metadata object and the tag list
with the single tag x y, yet afterwards the stored shortcut still has its former
metadata object, and its tags are x and y, not the list of the request. -/
theorem UpdateShortcut_listed_field_not_request_value :
    ∃ resp st1 S1,
      APIV2Service.UpdateShortcut memStore Sample.zeroState { userID := some 7 }
        { Shortcut := some Sample.zeroPatch,
          UpdateMask := some { Paths := ["og_metadata", "tags"] } } = (Result.ok resp, st1) ∧
      st1.shortcuts.find? (store.FindShortcut.matches { Name := some "zero" }) = some S1 ∧
      Sample.zeroPatch.OgMetadata = none ∧ S1.OgMetadata = some Sample.og ∧
      Sample.zeroPatch.Tags = ["x y"] ∧ S1.Tags = ["x", "y"] ∧
      S1.Tags ≠ Sample.zeroPatch.Tags :=
  ⟨_, _, _, rfl, rfl, rfl, rfl, rfl, rfl, by decide⟩

/-- C4, amended. For a caller C who is the creator of the shortcut S found by the name
of the request, or an ADMIN, and a non-empty mask, on a store that applies the
instruction it is handed to S, by overwriting exactly the fields present, and to no
other stored record: UpdateShortcut leaves the store with S replaced by a record
whose link, title, description and visibility are the values of the request when
listed in the mask, whose tags when listed are the decoding of the request tags
joined by single spaces (the request tags themselves when no tag is empty or
contains a space), whose metadata object when listed is the one of the request if
the request carries one and is kept otherwise, and whose every field not listed
keeps its prior value whatever the payload carries; every other stored shortcut is
unchanged; the call succeeds as soon as S carries its metadata object. With mask
title only the title of S changes. -/
theorem UpdateShortcut_mask_frame {σ : Type} (s : Store σ)
    (stored : σ → List storepb.Shortcut) (st st1 st2 st3 : σ) (C : Int) (user : store.User)
    (S : storepb.Shortcut) (rs : apiv2pb.Shortcut) (mask : apiv2pb.FieldMask)
    (hMask : mask.Paths ≠ [])
    (hUser : s.GetUser st { ID := some C } = (Except.ok user, st1))
    (hGet : s.GetShortcut st1 { Name := some rs.Name } = (Except.ok (some S), st2))
    (hAuth : S.CreatorId = C ∨ user.Role = store.RoleAdmin)
    (hStore : s.UpdateShortcut st2 (APIV2Service.buildUpdate rs mask.Paths) =
      (Except.ok ((APIV2Service.buildUpdate rs mask.Paths).apply S), st3))
    (hStored : stored st3 = (stored st2).map (fun x =>
      if x = S then (APIV2Service.buildUpdate rs mask.Paths).apply S else x)) :
    stored (APIV2Service.UpdateShortcut s st { userID := some C }
        { Shortcut := some rs, UpdateMask := some mask }).2 =
      (stored st2).map (fun x =>
        if x = S then
          { S with
            Link := if "link" ∈ mask.Paths then rs.Link else S.Link
            Title := if "title" ∈ mask.Paths then rs.Title else S.Title
            Description := if "description" ∈ mask.Paths then rs.Description
              else S.Description
            Visibility := if "visibility" ∈ mask.Paths then rs.Visibility else S.Visibility
            Tags := if "tags" ∈ mask.Paths then store.decodeTags (strings.Join rs.Tags " ")
              else S.Tags
            OgMetadata := if "og_metadata" ∈ mask.Paths then
                (match rs.OgMetadata with
                  | some og =>
                    some { Title := og.Title, Description := og.Description, Image := og.Image }
                  | none => S.OgMetadata)
              else S.OgMetadata }
        else x) ∧
    ((∀ t ∈ rs.Tags, t ≠ "" ∧ ' ' ∉ t.data) →
      store.decodeTags (strings.Join rs.Tags " ") = rs.Tags) ∧
    (mask.Paths = ["title"] →
      stored (APIV2Service.UpdateShortcut s st { userID := some C }
          { Shortcut := some rs, UpdateMask := some mask }).2 =
        (stored st2).map (fun x => if x = S then { S with Title := rs.Title } else x)) ∧
    APIV2Service.UpdateShortcut s st { userID := some C }
        { Shortcut := some rs, UpdateMask := some mask } =
      (match convertShortcutFromStorepb ((APIV2Service.buildUpdate rs mask.Paths).apply S) with
        | none => (Result.panicked, st3)
        | some m => (Result.ok { Shortcut := m }, st3)) ∧
    (S.OgMetadata ≠ none →
      ∃ m, APIV2Service.UpdateShortcut s st { userID := some C }
        { Shortcut := some rs, UpdateMask := some mask } = (Result.ok { Shortcut := m }, st3)) := by
  have hrun := UpdateShortcut_authorized_run s st st1 st2 C user S rs mask hMask hUser hGet hAuth
  rw [hStore] at hrun
  simp only at hrun
  have hsnd : (APIV2Service.UpdateShortcut s st { userID := some C }
      { Shortcut := some rs, UpdateMask := some mask }).2 = st3 := by
    rw [hrun]
    cases convertShortcutFromStorepb ((APIV2Service.buildUpdate rs mask.Paths).apply S) <;> rfl
  have happ := apply_buildUpdate rs mask.Paths S
  refine ⟨?_, decodeTags_Join rs.Tags, ?_, hrun, ?_⟩
  · rw [hsnd, hStored, happ]
  · intro hp
    rw [hsnd, hStored, happ, hp]
    simp
  · intro hmeta
    have hog : ((APIV2Service.buildUpdate rs mask.Paths).apply S).OgMetadata ≠ none := by
      rw [happ]
      simp only
      by_cases h6 : "og_metadata" ∈ mask.Paths
      · cases rs.OgMetadata <;> simp [h6, hmeta]
      · simp [h6, hmeta]
    cases hcv : convertShortcutFromStorepb
        ((APIV2Service.buildUpdate rs mask.Paths).apply S) with
    | none =>
      exfalso
      apply hog
      unfold convertShortcutFromStorepb at hcv
      cases hm : ((APIV2Service.buildUpdate rs mask.Paths).apply S).OgMetadata with
      | none => rfl
      | some og => simp [hm] at hcv
    | some m => exact ⟨m, by rw [hrun, hcv]⟩

/-- Witness of C4 amended: on the store that takes the shortcut go, whose id is 1, as
the target, its creator updates with mask title; the payload carries an empty link
and an empty tag list, and only the title of go changes. -/
theorem UpdateShortcut_mask_frame_witness :
    (APIV2Service.UpdateShortcut Sample.goTargetStore Sample.state { userID := some 7 }
      { Shortcut := some Sample.goTitlePatch,
        UpdateMask := some { Paths := ["title"] } }).2.shortcuts =
      [{ Sample.goShortcut with Title := "Golang" }, Sample.wikiShortcut] :=
  ((UpdateShortcut_mask_frame Sample.goTargetStore MemStore.shortcuts Sample.state
    Sample.state Sample.state
    { Sample.state with
      shortcuts := [{ Sample.goShortcut with Title := "Golang" }, Sample.wikiShortcut] }
    7 { ID := 7, Role := store.RoleUser } Sample.goShortcut Sample.goTitlePatch
    { Paths := ["title"] } (by decide) rfl rfl (Or.inl rfl) rfl rfl).2.2.1 rfl).trans rfl

/-! ## C5 -/

/-- C5. When the update mask is missing or its path list is empty, UpdateShortcut
returns InvalidArgument and hands back the store state it was given, for every
store, every context (with or without a caller identity) and every payload (with or
without a shortcut): no store operation is run, and the log of the logging store is
left as it was. -/
theorem UpdateShortcut_empty_mask_invalid {σ : Type} (s : Store σ) (st : σ) (ctx : Context)
    (request : apiv2pb.UpdateShortcutRequest)
    (hMask : request.UpdateMask = none ∨
      ∃ mask, request.UpdateMask = some mask ∧ mask.Paths = []) :
    APIV2Service.UpdateShortcut s st ctx request =
      (Result.status codes.InvalidArgument "updateMask is required", st) ∧
    ∀ log, APIV2Service.UpdateShortcut s.logged (st, log) ctx request =
      (Result.status codes.InvalidArgument "updateMask is required", (st, log)) := by
  rcases hMask with h | ⟨mask, h, hp⟩
  · constructor
    · simp [APIV2Service.UpdateShortcut, h]
    · intro log
      simp [APIV2Service.UpdateShortcut, h]
  · constructor
    · simp [APIV2Service.UpdateShortcut, h, hp]
    · intro log
      simp [APIV2Service.UpdateShortcut, h, hp]

/-- Witness of C5 on the reference store: an empty path list. -/
theorem UpdateShortcut_empty_mask_invalid_witness :
    APIV2Service.UpdateShortcut memStore Sample.state { userID := some 7 }
        { Shortcut := some Sample.goPatch, UpdateMask := some { Paths := [] } } =
      (Result.status codes.InvalidArgument "updateMask is required", Sample.state) ∧
    ∀ log, APIV2Service.UpdateShortcut memStore.logged (Sample.state, log) { userID := some 7 }
        { Shortcut := some Sample.goPatch, UpdateMask := some { Paths := [] } } =
      (Result.status codes.InvalidArgument "updateMask is required", (Sample.state, log)) :=
  UpdateShortcut_empty_mask_invalid memStore Sample.state { userID := some 7 }
    { Shortcut := some Sample.goPatch, UpdateMask := some { Paths := [] } }
    (Or.inr ⟨{ Paths := [] }, rfl, rfl⟩)

/-! ## C6 -/

/-- C6. When the lookup by name succeeds and finds no shortcut, GetShortcut returns
NotFound, for every context: the caller identity is not read (a context without an
identity gives NotFound too, where the permission check would panic), and the store
is left in the state reached after the lookup. -/
theorem GetShortcut_absent_not_found {σ : Type} (s : Store σ) (st st1 : σ) (name : String)
    (hGet : s.GetShortcut st { Name := some name } = (Except.ok none, st1)) (ctx : Context) :
    APIV2Service.GetShortcut s st ctx { Name := name } =
      (Result.status codes.NotFound "shortcut not found", st1) := by
  simp [APIV2Service.GetShortcut, hGet]

/-- Witness of C6 on the reference store: no shortcut is named nope, and the
context carries no identity. -/
theorem GetShortcut_absent_not_found_witness :
    APIV2Service.GetShortcut memStore Sample.state { userID := none } { Name := "nope" } =
      (Result.status codes.NotFound "shortcut not found", Sample.state) :=
  GetShortcut_absent_not_found memStore Sample.state Sample.state "nope" rfl { userID := none }

/-! ## C7 -/

/-- C7. On the reference store (which persists the record it is given and assigns id,
timestamps and row status), for every caller C and every create request whose name
is not yet stored: CreateShortcut succeeds as soon as the creation payload marshals,
and after every successful CreateShortcut, GetShortcut by C on the same name returns
the wire shortcut of the create response, whose name, link, title, tags, description
and visibility are the submitted ones, whose metadata object holds the submitted
metadata values (the empty values when the request carries no object), whose creator
is C and whose id and timestamps are the ones the store assigned. -/
theorem CreateShortcut_then_GetShortcut
    (marshal : storepb.ActivityShorcutCreatePayload → Except String String)
    (st : MemStore) (C : Int) (requestShortcut : apiv2pb.Shortcut)
    (hFresh : ∀ x ∈ st.shortcuts, x.Name ≠ requestShortcut.Name) :
    (∀ payload, marshal { ShortcutId := st.nextShortcutId } = Except.ok payload →
      ∃ resp st1, APIV2Service.CreateShortcut marshal memStore st { userID := some C }
        { Shortcut := some requestShortcut } = (Result.ok resp, st1)) ∧
    ∀ resp st1, APIV2Service.CreateShortcut marshal memStore st { userID := some C }
        { Shortcut := some requestShortcut } = (Result.ok resp, st1) →
      ∃ w, APIV2Service.GetShortcut memStore st1 { userID := some C }
          { Name := requestShortcut.Name } = (Result.ok { Shortcut := w }, st1) ∧
        w = resp.Shortcut ∧
        w.Name = requestShortcut.Name ∧ w.Link = requestShortcut.Link ∧
        w.Title = requestShortcut.Title ∧ w.Tags = requestShortcut.Tags ∧
        w.Description = requestShortcut.Description ∧
        w.Visibility = requestShortcut.Visibility ∧
        w.OgMetadata = some (match requestShortcut.OgMetadata with
          | some og => og
          | none => { Title := "", Description := "", Image := "" }) ∧
        w.CreatorId = C ∧ w.Id = st.nextShortcutId ∧
        w.CreatedTs = st.now ∧ w.UpdatedTs = st.now := by
  constructor
  · intro payload hMarshal
    obtain ⟨w, -, hrun⟩ := CreateShortcut_memStore_ok marshal st C requestShortcut payload
      hFresh hMarshal
    exact ⟨_, _, hrun⟩
  · intro resp st1 hCreate
    obtain ⟨C0, rs0, payload, hC0, hrs0, -, hMarshal⟩ :=
      CreateShortcut_memStore_success marshal st st1 _ _ resp hCreate
    obtain ⟨w, hw, hrun⟩ := CreateShortcut_memStore_ok marshal st C requestShortcut payload
      hFresh hMarshal
    rw [hrun] at hCreate
    simp only [Prod.mk.injEq, Result.ok.injEq] at hCreate
    obtain ⟨hresp, hst1⟩ := hCreate
    subst hresp hst1
    have hw2 := convert_persisted_newShortcut st C requestShortcut
    rw [hw] at hw2
    have hfind := find_by_name_append_fresh st.shortcuts
      (st.persisted (APIV2Service.newShortcut C requestShortcut)) requestShortcut.Name
      (newShortcut_fields C requestShortcut).2.1 hFresh
    have hcr : (st.persisted (APIV2Service.newShortcut C requestShortcut)).CreatorId = C :=
      (newShortcut_fields C requestShortcut).1
    refine ⟨w, ?_, rfl, ?_⟩
    · simp only [APIV2Service.GetShortcut, memStore, MemStore.GetShortcut, hfind, hcr, hw]
      simp
    · simp only [Option.some.injEq] at hw2
      subst hw2
      simp

/-- Witness of C7 on the reference store: user 9 creates the private shortcut docs,
without a metadata object. -/
theorem CreateShortcut_then_GetShortcut_witness :
    (∀ payload, marshalPayload { ShortcutId := Sample.state.nextShortcutId } =
        Except.ok payload →
      ∃ resp st1, APIV2Service.CreateShortcut marshalPayload memStore Sample.state
        { userID := some 9 } { Shortcut := some Sample.docsRequest } = (Result.ok resp, st1)) ∧
    ∀ resp st1, APIV2Service.CreateShortcut marshalPayload memStore Sample.state
        { userID := some 9 } { Shortcut := some Sample.docsRequest } = (Result.ok resp, st1) →
      ∃ w, APIV2Service.GetShortcut memStore st1 { userID := some 9 }
          { Name := Sample.docsRequest.Name } = (Result.ok { Shortcut := w }, st1) ∧
        w = resp.Shortcut ∧
        w.Name = Sample.docsRequest.Name ∧ w.Link = Sample.docsRequest.Link ∧
        w.Title = Sample.docsRequest.Title ∧ w.Tags = Sample.docsRequest.Tags ∧
        w.Description = Sample.docsRequest.Description ∧
        w.Visibility = Sample.docsRequest.Visibility ∧
        w.OgMetadata = some (match Sample.docsRequest.OgMetadata with
          | some og => og
          | none => { Title := "", Description := "", Image := "" }) ∧
        w.CreatorId = 9 ∧ w.Id = Sample.state.nextShortcutId ∧
        w.CreatedTs = Sample.state.now ∧ w.UpdatedTs = Sample.state.now :=
  CreateShortcut_then_GetShortcut marshalPayload Sample.state 9 Sample.docsRequest (by decide)

/-! ## C8 -/

/-- C8. Every successful CreateShortcut appends exactly one activity to the activity
log of the reference store; the activity has type shortcut-create and level info, its
creator is the creator of the new shortcut, who is the caller, and its payload is the
marshalled creation payload holding the id the store assigned to the new shortcut.
On every store a successful CreateShortcut issues exactly one CreateActivity call,
with such an activity. No other handler touches the activities: whatever part of the
store state the store operations other than CreateActivity leave alone is left alone
by ListShortcuts, GetShortcut, UpdateShortcut and DeleteShortcut. -/
theorem CreateShortcut_records_one_activity
    (marshal : storepb.ActivityShorcutCreatePayload → Except String String) :
    (∀ (st st1 : MemStore) (ctx : Context) (request : apiv2pb.CreateShortcutRequest)
        (resp : apiv2pb.CreateShortcutResponse),
      APIV2Service.CreateShortcut marshal memStore st ctx request = (Result.ok resp, st1) →
      ∃ a, st1.activities = st.activities ++ [a] ∧
        a.Typ = store.ActivityShortcutCreate ∧ a.Level = store.ActivityInfo ∧
        a.CreatorID = resp.Shortcut.CreatorId ∧ ctx.userID = some a.CreatorID ∧
        resp.Shortcut.Id = st.nextShortcutId ∧
        marshal { ShortcutId := resp.Shortcut.Id } = Except.ok a.Payload) ∧
    (∀ (σ : Type) (s : Store σ) (st st1 : σ) (log log1 : List StoreCall) (ctx : Context)
        (request : apiv2pb.CreateShortcutRequest) (resp : apiv2pb.CreateShortcutResponse),
      APIV2Service.CreateShortcut marshal s.logged (st, log) ctx request =
        (Result.ok resp, (st1, log1)) →
      ∃ create a, log1 = log ++ [StoreCall.CreateShortcut create, StoreCall.CreateActivity a] ∧
        a.Typ = store.ActivityShortcutCreate ∧ a.Level = store.ActivityInfo ∧
        a.CreatorID = resp.Shortcut.CreatorId ∧
        marshal { ShortcutId := resp.Shortcut.Id } = Except.ok a.Payload) ∧
    (∀ (σ β : Type) (s : Store σ) (activities : σ → β),
      (∀ st find, activities (s.ListShortcuts st find).2 = activities st) →
      (∀ st find, activities (s.GetShortcut st find).2 = activities st) →
      (∀ st find, activities (s.GetUser st find).2 = activities st) →
      (∀ st update, activities (s.UpdateShortcut st update).2 = activities st) →
      (∀ st delete, activities (s.DeleteShortcut st delete).2 = activities st) →
      ∀ (st : σ) (ctx : Context),
        (∀ request, activities (APIV2Service.ListShortcuts s st ctx request).2 = activities st) ∧
        (∀ request, activities (APIV2Service.GetShortcut s st ctx request).2 = activities st) ∧
        (∀ request, activities (APIV2Service.UpdateShortcut s st ctx request).2 = activities st) ∧
        (∀ request,
          activities (APIV2Service.DeleteShortcut s st ctx request).2 = activities st)) ∧
    (∀ (st : MemStore) (ctx : Context),
      (∀ request,
        (APIV2Service.ListShortcuts memStore st ctx request).2.activities = st.activities) ∧
      (∀ request,
        (APIV2Service.GetShortcut memStore st ctx request).2.activities = st.activities) ∧
      (∀ request,
        (APIV2Service.UpdateShortcut memStore st ctx request).2.activities = st.activities) ∧
      (∀ request,
        (APIV2Service.DeleteShortcut memStore st ctx request).2.activities = st.activities)) := by
  have hUserMem : ∀ (st : MemStore) find,
      (memStore.GetUser st find).2.activities = st.activities := by
    intro st find
    rw [MemStore_GetUser_snd]
  have hUpdateMem : ∀ (st : MemStore) update,
      (memStore.UpdateShortcut st update).2.activities = st.activities := by
    intro st update
    simp only [memStore, MemStore.UpdateShortcut]
    split <;> rfl
  refine ⟨?_, ?_, ?_, ?_⟩
  · intro st st1 ctx request resp h
    obtain ⟨C, requestShortcut, payload, hC, hrs, hFresh, hMarshal⟩ :=
      CreateShortcut_memStore_success marshal st st1 ctx request resp h
    obtain ⟨w, hw, hrun⟩ := CreateShortcut_memStore_ok marshal st C requestShortcut payload
      hFresh hMarshal
    have hctx : ctx = { userID := some C } := by
      cases ctx
      simp only at hC
      subst hC
      rfl
    have hreq : request = { Shortcut := some requestShortcut } := by
      cases request
      simp only at hrs
      subst hrs
      rfl
    subst hctx hreq
    rw [hrun] at h
    simp only [Prod.mk.injEq, Result.ok.injEq] at h
    obtain ⟨hresp, hst1⟩ := h
    subst hresp hst1
    obtain ⟨hid, hcr⟩ := convertShortcutFromStorepb_ids _ w hw
    have hcr2 : w.CreatorId = C := hcr.trans (newShortcut_fields C requestShortcut).1
    have hid2 : w.Id = st.nextShortcutId := hid
    refine ⟨_, rfl, rfl, rfl, hcr2.symm, rfl, hid2, ?_⟩
    simp only [hid2]
    exact hMarshal
  · intro σ s st st1 log log1 ctx request resp h
    exact CreateShortcut_logged_calls marshal s st st1 log log1 ctx request resp h
  · intro σ β s activities hList hGet hUser hUpdate hDelete st ctx
    exact ⟨fun request => ListShortcuts_frame s activities hList st ctx request,
      fun request => GetShortcut_frame s activities hGet st ctx request,
      fun request => UpdateShortcut_frame s activities hUser hGet hUpdate st ctx request,
      fun request => DeleteShortcut_frame s activities hUser hGet hDelete st ctx request⟩
  · intro st ctx
    exact ⟨fun request => ListShortcuts_frame memStore MemStore.activities (fun _ _ => rfl)
        st ctx request,
      fun request => GetShortcut_frame memStore MemStore.activities (fun _ _ => rfl)
        st ctx request,
      fun request => UpdateShortcut_frame memStore MemStore.activities hUserMem
        (fun _ _ => rfl) hUpdateMem st ctx request,
      fun request => DeleteShortcut_frame memStore MemStore.activities hUserMem
        (fun _ _ => rfl) (fun _ _ => rfl) st ctx request⟩

/-- Witness of C8 on the reference store: user 9 creates the shortcut docs; the
activity log, empty before, holds one shortcut-create activity of user 9 afterwards. -/
theorem CreateShortcut_records_one_activity_witness :
    ∃ a, (APIV2Service.CreateShortcut marshalPayload memStore Sample.state { userID := some 9 }
        { Shortcut := some Sample.docsRequest }).2.activities = Sample.state.activities ++ [a] ∧
      a.Typ = store.ActivityShortcutCreate ∧ a.Level = store.ActivityInfo ∧
      a.CreatorID = Sample.docsWire.CreatorId ∧ some 9 = some a.CreatorID ∧
      Sample.docsWire.Id = Sample.state.nextShortcutId ∧
      marshalPayload { ShortcutId := Sample.docsWire.Id } = Except.ok a.Payload :=
  (CreateShortcut_records_one_activity marshalPayload).1 Sample.state
    (APIV2Service.CreateShortcut marshalPayload memStore Sample.state { userID := some 9 }
      { Shortcut := some Sample.docsRequest }).2
    { userID := some 9 } { Shortcut := some Sample.docsRequest } { Shortcut := Sample.docsWire }
    rfl

/-! ## C9 -/

/-- C9. For an authorized caller (creator of the shortcut found by name, or ADMIN)
and a request whose metadata object is absent, UpdateShortcut with mask og_metadata
builds the instruction with no field set; it hands exactly that instruction to the
store and passes the answer of the store on (Internal only when the store fails), so
the absent object causes no failure; the log of the logging store shows the three
calls; and on the reference store the stored shortcuts, hence every stored metadata
object, are left as they were, whatever the outcome. -/
theorem UpdateShortcut_og_metadata_absent_noop {σ : Type} (s : Store σ) (st st1 st2 : σ)
    (C : Int) (user : store.User) (S : storepb.Shortcut) (requestShortcut : apiv2pb.Shortcut)
    (hAbsent : requestShortcut.OgMetadata = none)
    (hUser : s.GetUser st { ID := some C } = (Except.ok user, st1))
    (hGet : s.GetShortcut st1 { Name := some requestShortcut.Name } = (Except.ok (some S), st2))
    (hAuth : S.CreatorId = C ∨ user.Role = store.RoleAdmin) :
    APIV2Service.buildUpdate requestShortcut ["og_metadata"] =
      { ID := 0, Link := none, Title := none, Description := none, Visibility := none,
        Tag := none, OpenGraphMetadata := none } ∧
    APIV2Service.UpdateShortcut s st { userID := some C }
        { Shortcut := some requestShortcut, UpdateMask := some { Paths := ["og_metadata"] } } =
      (match s.UpdateShortcut st2 {} with
        | (Except.error err, st3) =>
          (Result.status codes.Internal ("failed to update shortcut, err: " ++ err), st3)
        | (Except.ok updated, st3) =>
          match convertShortcutFromStorepb updated with
          | none => (Result.panicked, st3)
          | some m => (Result.ok { Shortcut := m }, st3)) ∧
    (∀ log, (APIV2Service.UpdateShortcut s.logged (st, log) { userID := some C }
        { Shortcut := some requestShortcut,
          UpdateMask := some { Paths := ["og_metadata"] } }).2.2 =
      log ++ [StoreCall.GetUser { ID := some C },
        StoreCall.GetShortcut { Name := some requestShortcut.Name },
        StoreCall.UpdateShortcut {}]) ∧
    (∀ (mst : MemStore) (ctx : Context),
      (APIV2Service.UpdateShortcut memStore mst ctx
        { Shortcut := some requestShortcut,
          UpdateMask := some { Paths := ["og_metadata"] } }).2.shortcuts = mst.shortcuts) := by
  have hb := buildUpdate_og_metadata_absent requestShortcut hAbsent
  have hd : ¬ (S.CreatorId ≠ C ∧ user.Role ≠ store.RoleAdmin) := by
    rintro ⟨h1, h2⟩
    rcases hAuth with h | h
    · exact h1 h
    · exact h2 h
  refine ⟨hb, ?_, ?_, ?_⟩
  · simp only [APIV2Service.UpdateShortcut, List.length_singleton, one_ne_zero, if_false, hUser,
      hGet, hd, hb]
  · intro log
    rcases hup : s.UpdateShortcut st2 {} with ⟨rup, st3⟩
    cases rup with
    | error err =>
      simp [APIV2Service.UpdateShortcut, Store.logged, hUser, hGet, hd, hb, hup]
    | ok updated =>
      cases hcv : convertShortcutFromStorepb updated <;>
        simp [APIV2Service.UpdateShortcut, Store.logged, hUser, hGet, hd, hb, hup, hcv]
  · intro mst ctx
    have hupd : ∀ st0 : MemStore, (memStore.UpdateShortcut st0 {}).2.shortcuts = st0.shortcuts := by
      intro st0
      simp only [memStore, MemStore.UpdateShortcut]
      split
      · rfl
      · simp [UpdateShortcut_apply_empty]
    rcases UpdateShortcut_state_cases memStore mst ctx
        { Shortcut := some requestShortcut, UpdateMask := some { Paths := ["og_metadata"] } }
      with h | ⟨C0, -, h | ⟨rs, hrs, h | ⟨mask, hmask, h⟩⟩⟩
    · rw [h]
    · rw [h, MemStore_GetUser_snd]
    · rw [h, MemStore_GetShortcut_snd, MemStore_GetUser_snd]
    · simp only [Option.some.injEq] at hrs hmask
      subst hrs hmask
      rw [h, MemStore_GetShortcut_snd, MemStore_GetUser_snd, hb, hupd]

/-- Witness of C9 on the reference store: the creator of the shortcut zero, whose id
is the one the built instruction carries, sends mask og_metadata with no metadata
object; the call succeeds and returns the shortcut as it was. -/
theorem UpdateShortcut_og_metadata_absent_noop_witness :
    APIV2Service.buildUpdate Sample.zeroPatch ["og_metadata"] =
      { ID := 0, Link := none, Title := none, Description := none, Visibility := none,
        Tag := none, OpenGraphMetadata := none } ∧
    APIV2Service.UpdateShortcut memStore Sample.zeroState { userID := some 7 }
        { Shortcut := some Sample.zeroPatch,
          UpdateMask := some { Paths := ["og_metadata"] } } =
      (Result.ok { Shortcut := Sample.zeroWire }, Sample.zeroState) :=
  have h := UpdateShortcut_og_metadata_absent_noop memStore Sample.zeroState Sample.zeroState
    Sample.zeroState 7 { ID := 7, Role := store.RoleUser } Sample.zeroShortcut Sample.zeroPatch
    rfl rfl rfl (Or.inl rfl)
  ⟨h.1, h.2.1.trans rfl⟩

/-! ## C10 -/

/-- C10, as stated, fails: on a storage record whose metadata pointer is nil the
mapper dereferences nil and returns no wire record. -/
theorem convertShortcutFromStorepb_nil_metadata_panics :
    Sample.bareShortcut.OgMetadata = none ∧
    convertShortcutFromStorepb Sample.bareShortcut = none :=
  ⟨rfl, rfl⟩

/-- C10, amended. On every storage record whose metadata object is present the
mapper returns a wire record whose metadata object is present (empty when the stored
one is empty) with the stored title, description and image, and whose id, creator,
timestamps, row status, name, link, title, tags, description and visibility are
those of the storage record. -/
theorem convertShortcutFromStorepb_field_for_field (shortcut : storepb.Shortcut)
    (og : storepb.OpenGraphMetadata) (hMeta : shortcut.OgMetadata = some og) :
    ∃ w, convertShortcutFromStorepb shortcut = some w ∧
      w.OgMetadata =
        some { Title := og.Title, Description := og.Description, Image := og.Image } ∧
      w.Id = shortcut.Id ∧ w.CreatorId = shortcut.CreatorId ∧
      w.CreatedTs = shortcut.CreatedTs ∧ w.UpdatedTs = shortcut.UpdatedTs ∧
      w.RowStatus = shortcut.RowStatus ∧ w.Name = shortcut.Name ∧ w.Link = shortcut.Link ∧
      w.Title = shortcut.Title ∧ w.Tags = shortcut.Tags ∧
      w.Description = shortcut.Description ∧ w.Visibility = shortcut.Visibility := by
  simp [convertShortcutFromStorepb, hMeta]

/-- Witness of C10 amended: the shortcut go of the sample store. -/
theorem convertShortcutFromStorepb_field_for_field_witness :
    ∃ w, convertShortcutFromStorepb Sample.goShortcut = some w ∧
      w.OgMetadata =
        some { Title := Sample.og.Title, Description := Sample.og.Description,
               Image := Sample.og.Image } ∧
      w.Id = Sample.goShortcut.Id ∧ w.CreatorId = Sample.goShortcut.CreatorId ∧
      w.CreatedTs = Sample.goShortcut.CreatedTs ∧ w.UpdatedTs = Sample.goShortcut.UpdatedTs ∧
      w.RowStatus = Sample.goShortcut.RowStatus ∧ w.Name = Sample.goShortcut.Name ∧
      w.Link = Sample.goShortcut.Link ∧ w.Title = Sample.goShortcut.Title ∧
      w.Tags = Sample.goShortcut.Tags ∧ w.Description = Sample.goShortcut.Description ∧
      w.Visibility = Sample.goShortcut.Visibility :=
  convertShortcutFromStorepb_field_for_field Sample.goShortcut Sample.og rfl

/-! ## C11 -/

/-- C11. For a caller C who is the creator of the shortcut S found by name, or an
ADMIN: DeleteShortcut hands the store the delete instruction with exactly the id of S
and passes the answer on, an empty response when the store succeeds and Internal when
it fails; the log of the logging store shows the two lookups and that delete call.
On the reference store, after every successful DeleteShortcut the records carrying
the id of the resolved shortcut S are gone, so S is no longer stored, and every
other record, the users and the activities are as before. -/
theorem DeleteShortcut_by_resolved_id {σ : Type} (s : Store σ) (st st1 st2 : σ) (C : Int)
    (user : store.User) (S : storepb.Shortcut) (name : String)
    (hUser : s.GetUser st { ID := some C } = (Except.ok user, st1))
    (hGet : s.GetShortcut st1 { Name := some name } = (Except.ok (some S), st2))
    (hAuth : S.CreatorId = C ∨ user.Role = store.RoleAdmin) :
    APIV2Service.DeleteShortcut s st { userID := some C } { Name := name } =
      (match s.DeleteShortcut st2 { ID := S.Id } with
        | (Except.error err, st3) =>
          (Result.status codes.Internal ("failed to delete shortcut, err: " ++ err), st3)
        | (Except.ok _, st3) => (Result.ok {}, st3)) ∧
    (∀ log, (APIV2Service.DeleteShortcut s.logged (st, log) { userID := some C }
        { Name := name }).2.2 =
      log ++ [StoreCall.GetUser { ID := some C }, StoreCall.GetShortcut { Name := some name },
        StoreCall.DeleteShortcut { ID := S.Id }]) ∧
    (∀ (mst mst1 : MemStore) (C0 : Int) (name0 : String)
        (resp : apiv2pb.DeleteShortcutResponse),
      APIV2Service.DeleteShortcut memStore mst { userID := some C0 } { Name := name0 } =
        (Result.ok resp, mst1) →
      ∃ S0, mst.shortcuts.find? (store.FindShortcut.matches { Name := some name0 }) = some S0 ∧
        mst1.shortcuts = mst.shortcuts.filter (fun x => decide (x.Id ≠ S0.Id)) ∧
        S0 ∉ mst1.shortcuts ∧
        (∀ x ∈ mst.shortcuts, x.Id ≠ S0.Id → x ∈ mst1.shortcuts) ∧
        (∀ x ∈ mst1.shortcuts, x ∈ mst.shortcuts) ∧
        mst1.users = mst.users ∧ mst1.activities = mst.activities) := by
  have hd : ¬ (S.CreatorId ≠ C ∧ user.Role ≠ store.RoleAdmin) := by
    rintro ⟨h1, h2⟩
    rcases hAuth with h | h
    · exact h1 h
    · exact h2 h
  refine ⟨?_, ?_, ?_⟩
  · simp only [APIV2Service.DeleteShortcut, hUser, hGet, hd, if_false]
  · intro log
    rcases hdel : s.DeleteShortcut st2 { ID := S.Id } with ⟨rd, st3⟩
    cases rd <;> simp [APIV2Service.DeleteShortcut, Store.logged, hUser, hGet, hd, hdel]
  · intro mst mst1 C0 name0 resp hOk
    obtain ⟨user0, S0, -, hfind, -, hst⟩ :=
      DeleteShortcut_memStore_success mst mst1 C0 name0 resp hOk
    subst hst
    refine ⟨S0, hfind, rfl, ?_, ?_, ?_, rfl, rfl⟩
    · simp [List.mem_filter]
    · intro x hx hne
      simp [List.mem_filter, hx, hne]
    · intro x hx
      exact (List.mem_filter.mp hx).1

/-- Witness of C11 on the reference store: user 7 deletes the own shortcut go. -/
theorem DeleteShortcut_by_resolved_id_witness :
    APIV2Service.DeleteShortcut memStore Sample.state { userID := some 7 } { Name := "go" } =
      (Result.ok {}, { Sample.state with shortcuts := [Sample.wikiShortcut] }) ∧
    (∀ log, (APIV2Service.DeleteShortcut memStore.logged (Sample.state, log)
        { userID := some 7 } { Name := "go" }).2.2 =
      log ++ [StoreCall.GetUser { ID := some 7 }, StoreCall.GetShortcut { Name := some "go" },
        StoreCall.DeleteShortcut { ID := 1 }]) :=
  have h := DeleteShortcut_by_resolved_id memStore Sample.state Sample.state Sample.state 7
    { ID := 7, Role := store.RoleUser } Sample.goShortcut "go" rfl rfl (Or.inl rfl)
  ⟨h.1.trans rfl, h.2.1⟩

/-! ## C12 -/

/-- C12. On the reference store UpdateShortcut is idempotent: for every state,
context and request, running the same call again from the state the first call left
gives the same outcome and leaves that state as it is. In particular, for an
authorized caller and a non-empty mask, the second call returns the representation
the first call returned and the store after two calls is the store after one. -/
theorem UpdateShortcut_idempotent (st : MemStore) (ctx : Context)
    (request : apiv2pb.UpdateShortcutRequest) :
    APIV2Service.UpdateShortcut memStore
        (APIV2Service.UpdateShortcut memStore st ctx request).2 ctx request =
      APIV2Service.UpdateShortcut memStore st ctx request := by
  rcases UpdateShortcut_memStore_cases st ctx request
    with h | ⟨C, rs, mask, user, S, target, hctx, hreq, hne, hu, hf, hauth, ht⟩
  · rw [h]
  · subst hctx hreq
    have hg : memStore.GetShortcut st { Name := some rs.Name } = (Except.ok (some S), st) := by
      simp only [memStore, MemStore.GetShortcut, hf]
    have hup : memStore.UpdateShortcut st (APIV2Service.buildUpdate rs mask.Paths) =
        (Except.ok ((APIV2Service.buildUpdate rs mask.Paths).apply target),
          { st with shortcuts := st.shortcuts.map (fun x =>
              if x.Id = (APIV2Service.buildUpdate rs mask.Paths).ID then
                (APIV2Service.buildUpdate rs mask.Paths).apply x else x) }) := by
      simp only [memStore, MemStore.UpdateShortcut, ht]
    have hrun1 := UpdateShortcut_authorized_run memStore st st st C user S rs mask hne hu hg hauth
    rw [hup] at hrun1
    have htid : target.Id = (APIV2Service.buildUpdate rs mask.Paths).ID := by
      have := List.find?_some ht
      simpa using this
    have hu2 := MemStore_GetUser_of_users st
      { st with shortcuts := st.shortcuts.map (fun x =>
          if x.Id = (APIV2Service.buildUpdate rs mask.Paths).ID then
            (APIV2Service.buildUpdate rs mask.Paths).apply x else x) }
      { ID := some C } user rfl hu
    have hg2 : memStore.GetShortcut
        { st with shortcuts := st.shortcuts.map (fun x =>
          if x.Id = (APIV2Service.buildUpdate rs mask.Paths).ID then
            (APIV2Service.buildUpdate rs mask.Paths).apply x else x) }
        { Name := some rs.Name } =
        (Except.ok (some (if S.Id = (APIV2Service.buildUpdate rs mask.Paths).ID then
            (APIV2Service.buildUpdate rs mask.Paths).apply S else S)),
          { st with shortcuts := st.shortcuts.map (fun x =>
            if x.Id = (APIV2Service.buildUpdate rs mask.Paths).ID then
              (APIV2Service.buildUpdate rs mask.Paths).apply x else x) }) := by
      simp only [memStore, MemStore.GetShortcut, find_name_map_step, hf, Option.map_some']
    have hauth2 : (if S.Id = (APIV2Service.buildUpdate rs mask.Paths).ID then
          (APIV2Service.buildUpdate rs mask.Paths).apply S else S).CreatorId = C ∨
        user.Role = store.RoleAdmin := by
      rw [(update_step_keeps _ S).2.1]
      exact hauth
    have hup2 : memStore.UpdateShortcut
        { st with shortcuts := st.shortcuts.map (fun x =>
          if x.Id = (APIV2Service.buildUpdate rs mask.Paths).ID then
            (APIV2Service.buildUpdate rs mask.Paths).apply x else x) }
        (APIV2Service.buildUpdate rs mask.Paths) =
        (Except.ok ((APIV2Service.buildUpdate rs mask.Paths).apply target),
          { st with shortcuts := st.shortcuts.map (fun x =>
              if x.Id = (APIV2Service.buildUpdate rs mask.Paths).ID then
                (APIV2Service.buildUpdate rs mask.Paths).apply x else x) }) := by
      simp only [memStore, MemStore.UpdateShortcut, find_id_map_step, ht, Option.map_some',
        htid, if_true, UpdateShortcut_apply_idem, List.map_map]
      congr 2
      apply List.map_congr_left
      intro x _
      by_cases hx : x.Id = (APIV2Service.buildUpdate rs mask.Paths).ID
      · simp [hx, UpdateShortcut_apply_idem, (UpdateShortcut_apply_keeps _ x).1]
      · simp [hx]
    have hrun2 := UpdateShortcut_authorized_run memStore _ _ _ C user _ rs mask hne hu2 hg2 hauth2
    rw [hup2] at hrun2
    rw [hrun1]
    cases hcv : convertShortcutFromStorepb
        ((APIV2Service.buildUpdate rs mask.Paths).apply target) with
    | none =>
      simp only [hcv] at hrun2 ⊢
      exact hrun2
    | some w =>
      simp only [hcv] at hrun2 ⊢
      exact hrun2

/-- Witness of C12 on the reference store: the creator of the shortcut zero updates
its title twice; the second call returns the same representation and leaves the
store as the first call left it. -/
theorem UpdateShortcut_idempotent_witness :
    APIV2Service.UpdateShortcut memStore
        (APIV2Service.UpdateShortcut memStore Sample.zeroState { userID := some 7 }
          { Shortcut := some Sample.zeroPatch, UpdateMask := some { Paths := ["title"] } }).2
        { userID := some 7 }
        { Shortcut := some Sample.zeroPatch, UpdateMask := some { Paths := ["title"] } } =
      (Result.ok { Shortcut := { Sample.zeroWire with Title := "Other" } },
        { Sample.zeroState with
          shortcuts := [{ Sample.zeroShortcut with Title := "Other" }, Sample.goShortcut] }) :=
  (UpdateShortcut_idempotent Sample.zeroState { userID := some 7 }
    { Shortcut := some Sample.zeroPatch, UpdateMask := some { Paths := ["title"] } }).trans rfl

/-! ## C13 -/

/-- C13. On the reference store, in every state and for every handler call, a stored
shortcut keeps its id and its creator. ListShortcuts and GetShortcut leave the
stored shortcuts as they are; after UpdateShortcut, whatever the mask and the
payload (the id and the creator carried by the payload are never read), the stored
shortcuts carry, position by position, the ids and creators they carried before;
after DeleteShortcut the stored shortcuts are a sublist of the former ones, each
record unchanged; after CreateShortcut the former shortcuts are still stored
unchanged, and a successful call appends one record whose creator is the caller, as
in the response. The record CreateShortcut builds carries the caller as creator
whatever creator the request carries. -/
theorem creatorId_immutable
    (marshal : storepb.ActivityShorcutCreatePayload → Except String String)
    (st : MemStore) (ctx : Context) :
    (∀ request,
      (APIV2Service.ListShortcuts memStore st ctx request).2.shortcuts = st.shortcuts) ∧
    (∀ request,
      (APIV2Service.GetShortcut memStore st ctx request).2.shortcuts = st.shortcuts) ∧
    (∀ request,
      (APIV2Service.UpdateShortcut memStore st ctx request).2.shortcuts.map
          (fun x => (x.Id, x.CreatorId)) =
        st.shortcuts.map (fun x => (x.Id, x.CreatorId))) ∧
    (∀ request,
      (APIV2Service.DeleteShortcut memStore st ctx request).2.shortcuts.Sublist st.shortcuts) ∧
    (∀ request,
      st.shortcuts <+: (APIV2Service.CreateShortcut marshal memStore st ctx request).2.shortcuts) ∧
    (∀ request resp st1,
      APIV2Service.CreateShortcut marshal memStore st ctx request = (Result.ok resp, st1) →
      ∃ created, st1.shortcuts = st.shortcuts ++ [created] ∧
        ctx.userID = some created.CreatorId ∧
        resp.Shortcut.CreatorId = created.CreatorId ∧ resp.Shortcut.Id = created.Id) ∧
    (∀ (C : Int) (rs : apiv2pb.Shortcut), (APIV2Service.newShortcut C rs).CreatorId = C) := by
  have hUserEq : ∀ (st0 : MemStore) find, (memStore.GetUser st0 find).2 = st0 :=
    MemStore_GetUser_snd
  refine ⟨?_, ?_, ?_, ?_, ?_, ?_, ?_⟩
  · intro request
    exact ListShortcuts_frame memStore MemStore.shortcuts (fun _ _ => rfl) st ctx request
  · intro request
    exact GetShortcut_frame memStore MemStore.shortcuts (fun _ _ => rfl) st ctx request
  · intro request
    apply UpdateShortcut_frame memStore
      (fun st0 : MemStore => st0.shortcuts.map (fun x => (x.Id, x.CreatorId)))
    · intro st0 find
      simp only [hUserEq]
    · intro st0 find
      rfl
    · intro st0 update
      simp only [memStore, MemStore.UpdateShortcut]
      split
      · rfl
      · simp only [List.map_map]
        apply List.map_congr_left
        intro x _
        simp only [Function.comp_apply, (update_step_keeps update x).1,
          (update_step_keeps update x).2.1]
  · intro request
    apply DeleteShortcut_rel memStore
      (fun a b : MemStore => b.shortcuts.Sublist a.shortcuts)
    · intro a
      exact List.Sublist.refl _
    · intro a b c hab hbc
      exact hbc.trans hab
    · intro st0 find
      rw [hUserEq]
    · intro st0 find
      exact List.Sublist.refl _
    · intro st0 delete
      exact List.filter_sublist _
  · intro request
    apply CreateShortcut_rel marshal memStore
      (fun a b : MemStore => a.shortcuts <+: b.shortcuts)
    · intro a
      exact List.prefix_refl _
    · intro a b c hab hbc
      exact hab.trans hbc
    · intro st0 create
      simp only [memStore, MemStore.CreateShortcut]
      split
      · exact List.prefix_refl _
      · exact List.prefix_append _ _
    · intro st0 create
      exact List.prefix_refl _
  · intro request resp st1 hOk
    obtain ⟨C, rs, payload, hC, hrs, hFresh, hMarshal⟩ :=
      CreateShortcut_memStore_success marshal st st1 ctx request resp hOk
    obtain ⟨w, hw, hrun⟩ := CreateShortcut_memStore_ok marshal st C rs payload hFresh hMarshal
    have hctx : ctx = { userID := some C } := by
      cases ctx
      simp only at hC
      subst hC
      rfl
    have hreq : request = { Shortcut := some rs } := by
      cases request
      simp only at hrs
      subst hrs
      rfl
    subst hctx hreq
    rw [hrun] at hOk
    simp only [Prod.mk.injEq, Result.ok.injEq] at hOk
    obtain ⟨hresp, hst1⟩ := hOk
    subst hresp hst1
    obtain ⟨hid, hcr⟩ := convertShortcutFromStorepb_ids _ w hw
    have hcreator : (st.persisted (APIV2Service.newShortcut C rs)).CreatorId = C :=
      (newShortcut_fields C rs).1
    exact ⟨st.persisted (APIV2Service.newShortcut C rs), rfl, by rw [hcreator], hcr, hid⟩
  · intro C rs
    exact (newShortcut_fields C rs).1

/-- Witness of C13 on the reference store: the creator of the shortcut zero sends an
update naming every path, with a payload carrying another id and another creator;
the stored ids and creators are those before the call. The create request docs
carries creator 1 and is created by user 9. -/
theorem creatorId_immutable_witness :
    (APIV2Service.UpdateShortcut memStore Sample.zeroState { userID := some 7 }
        { Shortcut := some Sample.zeroPatch,
          UpdateMask := some { Paths :=
            ["link", "title", "tags", "description", "visibility", "og_metadata"] } }).2.shortcuts.map
        (fun x => (x.Id, x.CreatorId)) = [(0, 7), (1, 7)] ∧
    Sample.zeroPatch.CreatorId = 9 ∧ Sample.zeroPatch.Id = 55 ∧
    Sample.docsRequest.CreatorId = 1 ∧
    (APIV2Service.newShortcut 9 Sample.docsRequest).CreatorId = 9 :=
  have h := creatorId_immutable marshalPayload Sample.zeroState { userID := some 7 }
  ⟨(h.2.2.1 _).trans rfl, rfl, rfl, rfl, h.2.2.2.2.2.2 9 Sample.docsRequest⟩

/-! ## C14 -/

/-- C14. CreateShortcut has no rollback. When the store persists the shortcut and
then refuses the activity, the handler returns Internal and no response, after
exactly the two store calls CreateShortcut and CreateActivity: the store is left in
the state the store handed back, so a view of the stored shortcuts that held the new
record after the first call and that the refused write did not change still holds
it. When the store refuses the shortcut itself, the handler returns Internal after
that single call: no CreateActivity call is issued. -/
theorem CreateShortcut_not_atomic {σ : Type}
    (marshal : storepb.ActivityShorcutCreatePayload → Except String String)
    (s : Store σ) (st : σ) (C : Int) (rs : apiv2pb.Shortcut) :
    (∀ (created : storepb.Shortcut) (st1 st2 : σ) (payload err : String),
      s.CreateShortcut st (APIV2Service.newShortcut C rs) = (Except.ok created, st1) →
      marshal { ShortcutId := created.Id } = Except.ok payload →
      s.CreateActivity st1 {
          CreatorID := created.CreatorId, Typ := store.ActivityShortcutCreate,
          Level := store.ActivityInfo, Payload := payload } = (Except.error err, st2) →
      APIV2Service.CreateShortcut marshal s st { userID := some C } { Shortcut := some rs } =
        (Result.status codes.Internal
          ("failed to create activity, err: " ++ ("Failed to create activity: " ++ err)), st2) ∧
      (∀ log, (APIV2Service.CreateShortcut marshal s.logged (st, log) { userID := some C }
          { Shortcut := some rs }).2.2 =
        log ++ [StoreCall.CreateShortcut (APIV2Service.newShortcut C rs),
          StoreCall.CreateActivity {
            CreatorID := created.CreatorId, Typ := store.ActivityShortcutCreate,
            Level := store.ActivityInfo, Payload := payload }]) ∧
      (∀ stored : σ → List storepb.Shortcut,
        created ∈ stored st1 → stored st2 = stored st1 →
        created ∈ stored (APIV2Service.CreateShortcut marshal s st { userID := some C }
          { Shortcut := some rs }).2)) ∧
    (∀ (st1 : σ) (err : String),
      s.CreateShortcut st (APIV2Service.newShortcut C rs) = (Except.error err, st1) →
      APIV2Service.CreateShortcut marshal s st { userID := some C } { Shortcut := some rs } =
        (Result.status codes.Internal ("failed to create shortcut, err: " ++ err), st1) ∧
      (∀ log, (APIV2Service.CreateShortcut marshal s.logged (st, log) { userID := some C }
          { Shortcut := some rs }).2.2 =
        log ++ [StoreCall.CreateShortcut (APIV2Service.newShortcut C rs)])) := by
  constructor
  · intro created st1 st2 payload err hCreate hMarshal hActivity
    have hrun : APIV2Service.CreateShortcut marshal s st { userID := some C }
        { Shortcut := some rs } =
        (Result.status codes.Internal
          ("failed to create activity, err: " ++ ("Failed to create activity: " ++ err)),
          st2) := by
      simp [APIV2Service.CreateShortcut, APIV2Service.createShortcutCreateActivity, hCreate,
        hMarshal, hActivity]
    refine ⟨hrun, ?_, ?_⟩
    · intro log
      simp [APIV2Service.CreateShortcut, APIV2Service.createShortcutCreateActivity,
        Store.logged, hCreate, hMarshal, hActivity]
    · intro stored hmem hsame
      rw [hrun, hsame]
      exact hmem
  · intro st1 err hCreate
    constructor
    · simp [APIV2Service.CreateShortcut, hCreate]
    · intro log
      simp [APIV2Service.CreateShortcut, Store.logged, hCreate]

/-- Witness of C14: on the store whose activity log refuses every write, user 9
creates the shortcut docs and gets Internal while the shortcut stays stored; on the
reference store, user 9 creates a second shortcut named go and gets Internal with
the store unchanged. -/
theorem CreateShortcut_not_atomic_witness :
    (APIV2Service.CreateShortcut marshalPayload Sample.failingActivityStore Sample.state
        { userID := some 9 } { Shortcut := some Sample.docsRequest } =
      (Result.status codes.Internal
        ("failed to create activity, err: " ++ ("Failed to create activity: " ++ "disk full")),
        { Sample.state with
          shortcuts := Sample.state.shortcuts ++
            [Sample.state.persisted (APIV2Service.newShortcut 9 Sample.docsRequest)]
          nextShortcutId := 4 })) ∧
    (APIV2Service.CreateShortcut marshalPayload memStore Sample.state
        { userID := some 9 } { Shortcut := some Sample.goPatch } =
      (Result.status codes.Internal
        ("failed to create shortcut, err: " ++ "UNIQUE constraint failed: shortcut.name"),
        Sample.state)) :=
  ⟨((CreateShortcut_not_atomic marshalPayload Sample.failingActivityStore Sample.state 9
      Sample.docsRequest).1 _ _ _ _ _ rfl rfl rfl).1,
    ((CreateShortcut_not_atomic marshalPayload memStore Sample.state 9 Sample.goPatch).2
      _ _ rfl).1⟩

/-! ## C15 -/

/-- C15 fails on the code. The instruction UpdateShortcut builds never receives a
target: its ID is the zero value for every request and mask. On the sample store the
creator of the shortcut go, whose id is 1, updates its title: the store is handed an
instruction with ID 0, finds no such record, and the handler returns Internal. On
the store that also holds a shortcut with id 0, the same call changes that other
shortcut and returns its representation, leaving the shortcut go as it was. -/
theorem UpdateShortcut_instruction_target_unset :
    (∀ (rs : apiv2pb.Shortcut) (paths : List String),
      (APIV2Service.buildUpdate rs paths).ID = 0) ∧
    Sample.goShortcut.Id = 1 ∧
    APIV2Service.UpdateShortcut memStore.logged (Sample.state, []) { userID := some 7 }
        { Shortcut := some Sample.goTitlePatch, UpdateMask := some { Paths := ["title"] } } =
      (Result.status codes.Internal "failed to update shortcut, err: sql: no rows in result set",
        (Sample.state,
          [StoreCall.GetUser { ID := some 7 }, StoreCall.GetShortcut { Name := some "go" },
            StoreCall.UpdateShortcut { ID := 0, Title := some "Golang" }])) ∧
    APIV2Service.UpdateShortcut memStore Sample.zeroState { userID := some 7 }
        { Shortcut := some Sample.goTitlePatch, UpdateMask := some { Paths := ["title"] } } =
      (Result.ok { Shortcut := { Sample.zeroWire with Title := "Golang" } },
        { Sample.zeroState with
          shortcuts := [{ Sample.zeroShortcut with Title := "Golang" }, Sample.goShortcut] }) :=
  ⟨fun rs paths => (buildUpdate_fields rs paths).1, rfl, rfl, rfl⟩

/-! ## C16 -/

theorem UpdateShortcut_instruction_ext (u v : store.UpdateShortcut)
    (h0 : u.ID = v.ID) (h1 : u.Link = v.Link) (h2 : u.Title = v.Title)
    (h3 : u.Description = v.Description) (h4 : u.Visibility = v.Visibility)
    (h5 : u.Tag = v.Tag) (h6 : u.OpenGraphMetadata = v.OpenGraphMetadata) : u = v := by
  cases u
  cases v
  simp only at h0 h1 h2 h3 h4 h5 h6
  subst h0 h1 h2 h3 h4 h5 h6
  rfl

/-- C16. The instruction UpdateShortcut builds from a request and a mask has the
link, title, description and visibility field present, with the value of the
request, exactly when the path occurs in the mask; the tag field present, holding
the request tags joined by single spaces, exactly when tags occurs; the metadata
field present, holding the metadata of the request, exactly when og_metadata occurs
and the request carries a metadata object. Paths outside these six change nothing:
the instruction is the one built from the mask without them. In an authorized call
with a non-empty mask this instruction is the one handed to the store, and the
handler passes the answer of the store on, so no path raises an error. -/
theorem buildUpdate_follows_mask (rs : apiv2pb.Shortcut) (paths : List String) :
    (APIV2Service.buildUpdate rs paths).Link =
      (if "link" ∈ paths then some rs.Link else none) ∧
    (APIV2Service.buildUpdate rs paths).Title =
      (if "title" ∈ paths then some rs.Title else none) ∧
    (APIV2Service.buildUpdate rs paths).Description =
      (if "description" ∈ paths then some rs.Description else none) ∧
    (APIV2Service.buildUpdate rs paths).Visibility =
      (if "visibility" ∈ paths then some rs.Visibility else none) ∧
    (APIV2Service.buildUpdate rs paths).Tag =
      (if "tags" ∈ paths then some (strings.Join rs.Tags " ") else none) ∧
    (APIV2Service.buildUpdate rs paths).OpenGraphMetadata =
      (if "og_metadata" ∈ paths then
        (match rs.OgMetadata with
          | some og =>
            some { Title := og.Title, Description := og.Description, Image := og.Image }
          | none => none)
      else none) ∧
    APIV2Service.buildUpdate rs paths =
      APIV2Service.buildUpdate rs (paths.filter (fun p =>
        decide (p ∈ ["link", "title", "tags", "description", "visibility", "og_metadata"]))) ∧
    (∀ (σ : Type) (s : Store σ) (st st1 st2 : σ) (C : Int) (user : store.User)
        (S : storepb.Shortcut),
      paths ≠ [] →
      s.GetUser st { ID := some C } = (Except.ok user, st1) →
      s.GetShortcut st1 { Name := some rs.Name } = (Except.ok (some S), st2) →
      (S.CreatorId = C ∨ user.Role = store.RoleAdmin) →
      APIV2Service.UpdateShortcut s st { userID := some C }
          { Shortcut := some rs, UpdateMask := some { Paths := paths } } =
        (match s.UpdateShortcut st2 (APIV2Service.buildUpdate rs paths) with
          | (Except.error err, st3) =>
            (Result.status codes.Internal ("failed to update shortcut, err: " ++ err), st3)
          | (Except.ok updated, st3) =>
            match convertShortcutFromStorepb updated with
            | none => (Result.panicked, st3)
            | some m => (Result.ok { Shortcut := m }, st3)) ∧
      ∀ log, (APIV2Service.UpdateShortcut s.logged (st, log) { userID := some C }
          { Shortcut := some rs, UpdateMask := some { Paths := paths } }).2.2 =
        log ++ [StoreCall.GetUser { ID := some C },
          StoreCall.GetShortcut { Name := some rs.Name },
          StoreCall.UpdateShortcut (APIV2Service.buildUpdate rs paths)]) := by
  obtain ⟨a0, a1, a2, a3, a4, a5, a6⟩ := buildUpdate_fields rs paths
  obtain ⟨b0, b1, b2, b3, b4, b5, b6⟩ := buildUpdate_fields rs (paths.filter (fun p =>
    decide (p ∈ ["link", "title", "tags", "description", "visibility", "og_metadata"])))
  refine ⟨a1, a2, a3, a4, a5, a6, ?_, ?_⟩
  · apply UpdateShortcut_instruction_ext
    · rw [a0, b0]
    · rw [a1, b1]; simp [List.mem_filter]
    · rw [a2, b2]; simp [List.mem_filter]
    · rw [a3, b3]; simp [List.mem_filter]
    · rw [a4, b4]; simp [List.mem_filter]
    · rw [a5, b5]; simp [List.mem_filter]
    · rw [a6, b6]; simp [List.mem_filter]
  · intro σ s st st1 st2 C user S hne hUser hGet hAuth
    exact ⟨UpdateShortcut_authorized_run s st st1 st2 C user S rs { Paths := paths } hne hUser
        hGet hAuth,
      fun log => UpdateShortcut_authorized_log s st st1 st2 C user S rs { Paths := paths } hne
        hUser hGet hAuth log⟩

/-- Witness of C16: the mask names title, an unknown path and og_metadata, and the
request carries no metadata object; only the title field is present, as for the mask
title alone. -/
theorem buildUpdate_follows_mask_witness :
    APIV2Service.buildUpdate Sample.zeroPatch ["title", "name", "og_metadata"] =
      { ID := 0, Link := none, Title := some "Other", Description := none, Visibility := none,
        Tag := none, OpenGraphMetadata := none } ∧
    APIV2Service.UpdateShortcut memStore Sample.zeroState { userID := some 7 }
        { Shortcut := some Sample.zeroPatch,
          UpdateMask := some { Paths := ["title", "name", "og_metadata"] } } =
      (Result.ok { Shortcut := { Sample.zeroWire with Title := "Other" } },
        { Sample.zeroState with
          shortcuts := [{ Sample.zeroShortcut with Title := "Other" }, Sample.goShortcut] }) :=
  have h := buildUpdate_follows_mask Sample.zeroPatch ["title", "name", "og_metadata"]
  ⟨h.2.2.2.2.2.2.1.trans rfl,
    ((h.2.2.2.2.2.2.2 MemStore memStore Sample.zeroState Sample.zeroState Sample.zeroState 7
      { ID := 7, Role := store.RoleUser } Sample.zeroShortcut (by decide) rfl rfl
      (Or.inl rfl)).1).trans rfl⟩

/-! ## C17 -/

/-- C17. When the two store list calls succeed, with answer V for the visibilities
WORKSPACE and PUBLIC without a creator and answer P for PRIVATE with creator C,
ListShortcuts runs the mapper over P followed by V: every response lists the wire
images of P then of V, element by element in the order of the store, so its length
is the length of P plus the length of V, and a response is returned as soon as the
records of P and V carry their metadata object. When the first or the second store
call fails the handler returns Internal and no list. -/
theorem ListShortcuts_private_then_visible {σ : Type} (s : Store σ) (st : σ) (C : Int)
    (request : apiv2pb.ListShortcutsRequest) :
    (∀ (V P : List storepb.Shortcut) (st1 st2 : σ),
      s.ListShortcuts st
        { VisibilityList := [store.VisibilityWorkspace, store.VisibilityPublic] } =
        (Except.ok V, st1) →
      s.ListShortcuts st1
        { CreatorID := some C, VisibilityList := [store.VisibilityPrivate] } =
        (Except.ok P, st2) →
      (∀ resp st3,
        APIV2Service.ListShortcuts s st { userID := some C } request = (Result.ok resp, st3) →
        resp.Shortcuts.map some = (P ++ V).map convertShortcutFromStorepb ∧
        resp.Shortcuts.length = P.length + V.length ∧ st3 = st2) ∧
      ((∀ x ∈ P ++ V, x.OgMetadata ≠ none) →
        ∃ resp, APIV2Service.ListShortcuts s st { userID := some C } request =
          (Result.ok resp, st2))) ∧
    (∀ (err : String) (st1 : σ),
      s.ListShortcuts st
        { VisibilityList := [store.VisibilityWorkspace, store.VisibilityPublic] } =
        (Except.error err, st1) →
      APIV2Service.ListShortcuts s st { userID := some C } request =
        (Result.status codes.Internal
          ("failed to fetch visible shortcut list, err: " ++ err), st1)) ∧
    (∀ (V : List storepb.Shortcut) (err : String) (st1 st2 : σ),
      s.ListShortcuts st
        { VisibilityList := [store.VisibilityWorkspace, store.VisibilityPublic] } =
        (Except.ok V, st1) →
      s.ListShortcuts st1
        { CreatorID := some C, VisibilityList := [store.VisibilityPrivate] } =
        (Except.error err, st2) →
      APIV2Service.ListShortcuts s st { userID := some C } request =
        (Result.status codes.Internal
          ("failed to fetch private shortcut list, err: " ++ err), st2)) := by
  refine ⟨?_, ?_, ?_⟩
  · intro V P st1 st2 hV hP
    have hrun := ListShortcuts_run s st st1 st2 C V P request hV hP
    constructor
    · intro resp st3 hres
      rw [hrun] at hres
      cases hc : convertAll (P ++ V) with
      | none => simp [hc] at hres
      | some ws =>
        simp only [hc, Prod.mk.injEq, Result.ok.injEq] at hres
        obtain ⟨hresp, hst⟩ := hres
        subst hresp
        obtain ⟨h1, h2⟩ := convertAll_map (P ++ V) ws hc
        exact ⟨h1, by simpa using h2, hst.symm⟩
    · intro hmeta
      obtain ⟨ws, hws⟩ := convertAll_isSome (P ++ V) hmeta
      exact ⟨{ Shortcuts := ws }, by rw [hrun, hws]⟩
  · intro err st1 hV
    simp [APIV2Service.ListShortcuts, hV]
  · intro V err st1 st2 hV hP
    simp [APIV2Service.ListShortcuts, hV, hP]

/-- Witness of C17 on the reference store: for user 7 the private shortcut go comes
first, the workspace shortcut wiki second. -/
theorem ListShortcuts_private_then_visible_witness :
    (∀ resp st3,
      APIV2Service.ListShortcuts memStore Sample.state { userID := some 7 } {} =
        (Result.ok resp, st3) →
      resp.Shortcuts.map some =
        ([Sample.goShortcut] ++ [Sample.wikiShortcut]).map convertShortcutFromStorepb ∧
      resp.Shortcuts.length = [Sample.goShortcut].length + [Sample.wikiShortcut].length ∧
      st3 = Sample.state) ∧
    ((∀ x ∈ [Sample.goShortcut] ++ [Sample.wikiShortcut], x.OgMetadata ≠ none) →
      ∃ resp, APIV2Service.ListShortcuts memStore Sample.state { userID := some 7 } {} =
        (Result.ok resp, Sample.state)) :=
  (ListShortcuts_private_then_visible memStore Sample.state 7 {}).1
    [Sample.wikiShortcut] [Sample.goShortcut] Sample.state Sample.state rfl rfl

/-! ## C18 -/

/-- C18. When the user lookup of the caller succeeds, whatever the role, and the
lookup by name finds no shortcut, UpdateShortcut with a non-empty mask and
DeleteShortcut both return NotFound, not PermissionDenied; the store is left in the
state reached after the two lookups, whatever the store operations UpdateShortcut and
DeleteShortcut would do, and the log of the logging store gains exactly the two
lookups: nothing is written. -/
theorem UpdateShortcut_DeleteShortcut_not_found {σ : Type} (s : Store σ) (st st1 st2 : σ)
    (C : Int) (user : store.User) (requestShortcut : apiv2pb.Shortcut)
    (mask : apiv2pb.FieldMask)
    (hMask : mask.Paths ≠ [])
    (hUser : s.GetUser st { ID := some C } = (Except.ok user, st1))
    (hGet : s.GetShortcut st1 { Name := some requestShortcut.Name } = (Except.ok none, st2)) :
    (∀ update delete,
      APIV2Service.UpdateShortcut { s with UpdateShortcut := update, DeleteShortcut := delete }
        st { userID := some C } { Shortcut := some requestShortcut, UpdateMask := some mask } =
        (Result.status codes.NotFound "shortcut not found", st2) ∧
      APIV2Service.DeleteShortcut { s with UpdateShortcut := update, DeleteShortcut := delete }
        st { userID := some C } { Name := requestShortcut.Name } =
        (Result.status codes.NotFound "shortcut not found", st2)) ∧
    APIV2Service.UpdateShortcut s st { userID := some C }
        { Shortcut := some requestShortcut, UpdateMask := some mask } =
      (Result.status codes.NotFound "shortcut not found", st2) ∧
    APIV2Service.DeleteShortcut s st { userID := some C } { Name := requestShortcut.Name } =
      (Result.status codes.NotFound "shortcut not found", st2) ∧
    (∀ log, (APIV2Service.UpdateShortcut s.logged (st, log) { userID := some C }
        { Shortcut := some requestShortcut, UpdateMask := some mask }).2.2 =
      log ++ [StoreCall.GetUser { ID := some C },
        StoreCall.GetShortcut { Name := some requestShortcut.Name }]) ∧
    (∀ log, (APIV2Service.DeleteShortcut s.logged (st, log) { userID := some C }
        { Name := requestShortcut.Name }).2.2 =
      log ++ [StoreCall.GetUser { ID := some C },
        StoreCall.GetShortcut { Name := some requestShortcut.Name }]) := by
  have hlen : mask.Paths.length ≠ 0 := by
    intro h
    exact hMask (List.length_eq_zero.mp h)
  refine ⟨?_, ?_, ?_, ?_, ?_⟩
  · intro update delete
    constructor
    · simp [APIV2Service.UpdateShortcut, hlen, hUser, hGet]
    · simp [APIV2Service.DeleteShortcut, hUser, hGet]
  · simp [APIV2Service.UpdateShortcut, hlen, hUser, hGet]
  · simp [APIV2Service.DeleteShortcut, hUser, hGet]
  · intro log
    simp [APIV2Service.UpdateShortcut, Store.logged, hlen, hUser, hGet]
  · intro log
    simp [APIV2Service.DeleteShortcut, Store.logged, hUser, hGet]

/-- Witness of C18 on the reference store: the admin, user 1, names a shortcut that
is not stored. -/
theorem UpdateShortcut_DeleteShortcut_not_found_witness :
    APIV2Service.UpdateShortcut memStore Sample.state { userID := some 1 }
        { Shortcut := some Sample.docsRequest, UpdateMask := some { Paths := ["link"] } } =
      (Result.status codes.NotFound "shortcut not found", Sample.state) ∧
    APIV2Service.DeleteShortcut memStore Sample.state { userID := some 1 } { Name := "docs" } =
      (Result.status codes.NotFound "shortcut not found", Sample.state) :=
  have h := UpdateShortcut_DeleteShortcut_not_found memStore Sample.state Sample.state
    Sample.state 1 { ID := 1, Role := store.RoleAdmin } Sample.docsRequest { Paths := ["link"] }
    (by decide) rfl rfl
  ⟨h.2.1, h.2.2.1⟩

/-! ## C19 -/

theorem find_by_unique_name (l : List storepb.Shortcut) (S : storepb.Shortcut) (hS : S ∈ l)
    (hUnique : ∀ x ∈ l, x.Name = S.Name → x = S) :
    l.find? (store.FindShortcut.matches { Name := some S.Name }) = some S := by
  induction l with
  | nil => simp at hS
  | cons a rest ih =>
    by_cases ha : a.Name = S.Name
    · have : a = S := hUnique a (List.mem_cons_self a rest) ha
      subst this
      simp [List.find?_cons, store.FindShortcut.matches]
    · have hne : S ≠ a := fun h => ha (by rw [h])
      have hrest : S ∈ rest := by
        rcases List.mem_cons.mp hS with h | h
        · exact absurd h hne
        · exact h
      have hm : store.FindShortcut.matches { Name := some S.Name } a = false := by
        simp [store.FindShortcut.matches, ha]
      rw [List.find?_cons, hm]
      exact ih hrest (fun x hx => hUnique x (List.mem_cons_of_mem a hx))

/-- C19, as stated, fails. User 7 creates a shortcut without choosing a visibility, so
the stored visibility is the zero value of the enumeration; names stay unique. For
user 9, GetShortcut on that name succeeds and returns the wire image of the stored
shortcut, while ListShortcuts returns a list that does not hold it. -/
theorem GetShortcut_ListShortcuts_disagree :
    Sample.draftState.shortcuts =
      [Sample.goShortcut, Sample.wikiShortcut, Sample.draftShortcut] ∧
    Sample.draftShortcut.Visibility = storepb.Visibility_VISIBILITY_UNSPECIFIED ∧
    convertShortcutFromStorepb Sample.draftShortcut = some Sample.draftWire ∧
    APIV2Service.GetShortcut memStore Sample.draftState { userID := some 9 }
        { Name := "draft" } =
      (Result.ok { Shortcut := Sample.draftWire }, Sample.draftState) ∧
    ∃ l, APIV2Service.ListShortcuts memStore Sample.draftState { userID := some 9 } {} =
        (Result.ok { Shortcuts := l }, Sample.draftState) ∧
      Sample.draftWire ∉ l :=
  ⟨rfl, rfl, rfl, rfl, _, rfl, by decide⟩

/-- C19, amended. On a store that answers ListShortcuts with the stored shortcuts
matching the filter and GetShortcut with the first stored shortcut matching the
filter, for every caller C and every stored shortcut S whose name no other stored
shortcut carries and whose visibility is PRIVATE, WORKSPACE or PUBLIC: against every
response of ListShortcuts for C, GetShortcut on the name of S by C returns the wire
image of S exactly when that wire image is in the response, and returns
PermissionDenied exactly when it is not; both handlers return such outcomes as soon
as the stored records carry their metadata object. -/
theorem GetShortcut_agrees_with_ListShortcuts {σ : Type} (s : Store σ)
    (stored : σ → List storepb.Shortcut)
    (hList : ∀ st find, ∃ st1,
      s.ListShortcuts st find = (Except.ok ((stored st).filter find.matches), st1) ∧
      stored st1 = stored st)
    (hGet : ∀ st find, ∃ st1,
      s.GetShortcut st find = (Except.ok ((stored st).find? find.matches), st1))
    (st : σ) (C : Int) (S : storepb.Shortcut) (hS : S ∈ stored st)
    (hUnique : ∀ x ∈ stored st, x.Name = S.Name → x = S)
    (hVis : S.Visibility = storepb.Visibility_PRIVATE ∨
      S.Visibility = storepb.Visibility_WORKSPACE ∨ S.Visibility = storepb.Visibility_PUBLIC) :
    (∀ request resp st2,
      APIV2Service.ListShortcuts s st { userID := some C } request = (Result.ok resp, st2) →
      ((∃ w st1, convertShortcutFromStorepb S = some w ∧
          APIV2Service.GetShortcut s st { userID := some C } { Name := S.Name } =
            (Result.ok { Shortcut := w }, st1)) ↔
        (∃ w, convertShortcutFromStorepb S = some w ∧ w ∈ resp.Shortcuts)) ∧
      ((∃ st1, APIV2Service.GetShortcut s st { userID := some C } { Name := S.Name } =
            (Result.status codes.PermissionDenied "Permission denied", st1)) ↔
        ¬ ∃ w, convertShortcutFromStorepb S = some w ∧ w ∈ resp.Shortcuts)) ∧
    ((∀ x ∈ stored st, x.OgMetadata ≠ none) →
      (∃ resp st2, APIV2Service.ListShortcuts s st { userID := some C } {} =
        (Result.ok resp, st2)) ∧
      ((∃ w st1, convertShortcutFromStorepb S = some w ∧
          APIV2Service.GetShortcut s st { userID := some C } { Name := S.Name } =
            (Result.ok { Shortcut := w }, st1)) ∨
        ∃ st1, APIV2Service.GetShortcut s st { userID := some C } { Name := S.Name } =
          (Result.status codes.PermissionDenied "Permission denied", st1))) := by
  obtain ⟨stg, hg⟩ := hGet st { Name := some S.Name }
  rw [find_by_unique_name (stored st) S hS hUnique] at hg
  have hrun : APIV2Service.GetShortcut s st { userID := some C } { Name := S.Name } =
      (if S.Visibility = storepb.Visibility_PRIVATE ∧ S.CreatorId ≠ C then
        (Result.status codes.PermissionDenied "Permission denied", stg)
      else
        match convertShortcutFromStorepb S with
        | none => (Result.panicked, stg)
        | some m => (Result.ok { Shortcut := m }, stg)) := by
    simp only [APIV2Service.GetShortcut, hg]
  have hvisible : (S.Visibility = storepb.Visibility_WORKSPACE ∨
      S.Visibility = storepb.Visibility_PUBLIC ∨
      (S.Visibility = storepb.Visibility_PRIVATE ∧ S.CreatorId = C)) ↔
      ¬ (S.Visibility = storepb.Visibility_PRIVATE ∧ S.CreatorId ≠ C) := by
    constructor
    · rintro (h | h | ⟨-, h⟩) ⟨hp, hc⟩
      · rw [hp] at h
        exact absurd h (by decide)
      · rw [hp] at h
        exact absurd h (by decide)
      · exact hc h
    · intro hn
      rcases hVis with h | h | h
      · right
        right
        refine ⟨h, ?_⟩
        by_contra hc
        exact hn ⟨h, hc⟩
      · exact Or.inl h
      · exact Or.inr (Or.inl h)
  constructor
  · intro request resp st2 hres
    have hin := ListShortcuts_response_mem s stored hList st st2 C request resp hres S
    constructor
    · constructor
      · rintro ⟨w, st1, hw, hget⟩
        apply hin.mpr
        refine ⟨hS, hvisible.mpr ?_⟩
        intro hden
        rw [hrun, if_pos hden] at hget
        simp at hget
      · rintro ⟨w, hw, hmem⟩
        have hnd := hvisible.mp (hin.mp ⟨w, hw, hmem⟩).2
        exact ⟨w, stg, hw, by rw [hrun, if_neg hnd, hw]⟩
    · constructor
      · rintro ⟨st1, hget⟩ hmem
        have hnd := hvisible.mp (hin.mp hmem).2
        rw [hrun, if_neg hnd] at hget
        cases hcv : convertShortcutFromStorepb S <;> simp [hcv] at hget
      · intro hnot
        have hden : S.Visibility = storepb.Visibility_PRIVATE ∧ S.CreatorId ≠ C := by
          by_contra hnd
          exact hnot (hin.mpr ⟨hS, hvisible.mpr hnd⟩)
        exact ⟨stg, by rw [hrun, if_pos hden]⟩
  · intro hmeta
    obtain ⟨st1, h1, hs1⟩ := hList st
      { VisibilityList := [store.VisibilityWorkspace, store.VisibilityPublic] }
    obtain ⟨st2, h2, -⟩ := hList st1
      { CreatorID := some C, VisibilityList := [store.VisibilityPrivate] }
    rw [hs1] at h2
    obtain ⟨ws, hws⟩ := convertAll_isSome ((stored st).filter (store.FindShortcut.matches
        { CreatorID := some C, VisibilityList := [store.VisibilityPrivate] }) ++
      (stored st).filter (store.FindShortcut.matches
        { VisibilityList := [store.VisibilityWorkspace, store.VisibilityPublic] }))
      (fun x hx => hmeta x ((mem_private_append_visible _ C x).mp hx).1)
    constructor
    · exact ⟨{ Shortcuts := ws }, st2,
        by rw [ListShortcuts_run s st st1 st2 C _ _ {} h1 h2, hws]⟩
    · by_cases hden : S.Visibility = storepb.Visibility_PRIVATE ∧ S.CreatorId ≠ C
      · exact Or.inr ⟨stg, by rw [hrun, if_pos hden]⟩
      · left
        cases hog : S.OgMetadata with
        | none => exact absurd hog (hmeta S hS)
        | some og =>
          have hw : ∃ w, convertShortcutFromStorepb S = some w := by
            simp [convertShortcutFromStorepb, hog]
          obtain ⟨w, hw⟩ := hw
          exact ⟨w, stg, hw, by rw [hrun, if_neg hden, hw]⟩

/-- Witness of C19 amended on the reference store: user 9 and the private shortcut
go of user 7, against the list user 9 gets, which holds the shortcut wiki only. -/
theorem GetShortcut_agrees_with_ListShortcuts_witness :
    ((∃ w st1, convertShortcutFromStorepb Sample.goShortcut = some w ∧
        APIV2Service.GetShortcut memStore Sample.state { userID := some 9 }
          { Name := Sample.goShortcut.Name } = (Result.ok { Shortcut := w }, st1)) ↔
      (∃ w, convertShortcutFromStorepb Sample.goShortcut = some w ∧ w ∈ [Sample.wikiWire])) ∧
    ((∃ st1, APIV2Service.GetShortcut memStore Sample.state { userID := some 9 }
          { Name := Sample.goShortcut.Name } =
        (Result.status codes.PermissionDenied "Permission denied", st1)) ↔
      ¬ ∃ w, convertShortcutFromStorepb Sample.goShortcut = some w ∧ w ∈ [Sample.wikiWire]) :=
  (GetShortcut_agrees_with_ListShortcuts memStore MemStore.shortcuts
    (fun st _ => ⟨st, rfl, rfl⟩) (fun st _ => ⟨st, rfl⟩) Sample.state 9 Sample.goShortcut
    (by decide) (by decide) (Or.inl rfl)).1 {} { Shortcuts := [Sample.wikiWire] } Sample.state rfl

/-! ## C20 -/

/-- C20. For a caller C whose user record has role ADMIN and a PRIVATE shortcut S,
found by name, whose creator is not C: GetShortcut returns PermissionDenied and no
response of ListShortcuts for C holds the wire image of S, while UpdateShortcut with
a non-empty mask and DeleteShortcut pass the authorization test, reach the store
call and pass its answer on, so neither returns PermissionDenied. ListShortcuts and
GetShortcut give the same outcome whatever GetUser would answer: the role is never
read by them. -/
theorem admin_read_write_asymmetry {σ : Type} (s : Store σ)
    (stored : σ → List storepb.Shortcut)
    (hList : ∀ st find, ∃ st1,
      s.ListShortcuts st find = (Except.ok ((stored st).filter find.matches), st1) ∧
      stored st1 = stored st)
    (st sta st1 st2 : σ) (C : Int) (user : store.User) (S : storepb.Shortcut)
    (rs : apiv2pb.Shortcut) (mask : apiv2pb.FieldMask)
    (hMask : mask.Paths ≠ [])
    (hAdmin : user.Role = store.RoleAdmin)
    (hPrivate : S.Visibility = storepb.Visibility_PRIVATE) (hOther : S.CreatorId ≠ C)
    (hLookup : s.GetShortcut st { Name := some rs.Name } = (Except.ok (some S), sta))
    (hUser : s.GetUser st { ID := some C } = (Except.ok user, st1))
    (hGet : s.GetShortcut st1 { Name := some rs.Name } = (Except.ok (some S), st2)) :
    APIV2Service.GetShortcut s st { userID := some C } { Name := rs.Name } =
      (Result.status codes.PermissionDenied "Permission denied", sta) ∧
    (∀ request resp st3,
      APIV2Service.ListShortcuts s st { userID := some C } request = (Result.ok resp, st3) →
      ¬ ∃ w, convertShortcutFromStorepb S = some w ∧ w ∈ resp.Shortcuts) ∧
    (APIV2Service.UpdateShortcut s st { userID := some C }
        { Shortcut := some rs, UpdateMask := some mask } =
      (match s.UpdateShortcut st2 (APIV2Service.buildUpdate rs mask.Paths) with
        | (Except.error err, st3) =>
          (Result.status codes.Internal ("failed to update shortcut, err: " ++ err), st3)
        | (Except.ok updated, st3) =>
          match convertShortcutFromStorepb updated with
          | none => (Result.panicked, st3)
          | some m => (Result.ok { Shortcut := m }, st3))) ∧
    (∀ msg, (APIV2Service.UpdateShortcut s st { userID := some C }
        { Shortcut := some rs, UpdateMask := some mask }).1 ≠
      Result.status codes.PermissionDenied msg) ∧
    (APIV2Service.DeleteShortcut s st { userID := some C } { Name := rs.Name } =
      (match s.DeleteShortcut st2 { ID := S.Id } with
        | (Except.error err, st3) =>
          (Result.status codes.Internal ("failed to delete shortcut, err: " ++ err), st3)
        | (Except.ok _, st3) => (Result.ok {}, st3))) ∧
    (∀ msg, (APIV2Service.DeleteShortcut s st { userID := some C } { Name := rs.Name }).1 ≠
      Result.status codes.PermissionDenied msg) ∧
    (∀ getUser ctx request,
      APIV2Service.ListShortcuts { s with GetUser := getUser } st ctx request =
        APIV2Service.ListShortcuts s st ctx request) ∧
    (∀ getUser ctx request,
      APIV2Service.GetShortcut { s with GetUser := getUser } st ctx request =
        APIV2Service.GetShortcut s st ctx request) := by
  have hAuth : S.CreatorId = C ∨ user.Role = store.RoleAdmin := Or.inr hAdmin
  have hd : ¬ (S.CreatorId ≠ C ∧ user.Role ≠ store.RoleAdmin) := fun h => h.2 hAdmin
  have hrunU := UpdateShortcut_authorized_run s st st1 st2 C user S rs mask hMask hUser hGet hAuth
  have hrunD : APIV2Service.DeleteShortcut s st { userID := some C } { Name := rs.Name } =
      (match s.DeleteShortcut st2 { ID := S.Id } with
        | (Except.error err, st3) =>
          (Result.status codes.Internal ("failed to delete shortcut, err: " ++ err), st3)
        | (Except.ok _, st3) => (Result.ok {}, st3)) := by
    simp only [APIV2Service.DeleteShortcut, hUser, hGet, hd, if_false]
  refine ⟨?_, ?_, hrunU, ?_, hrunD, ?_, ?_, ?_⟩
  · simp [APIV2Service.GetShortcut, hLookup, hPrivate, hOther]
  · rintro request resp st3 hres hin
    have hvis := ((ListShortcuts_response_mem s stored hList st st3 C request resp hres S).mp
      hin).2
    rw [hPrivate] at hvis
    rcases hvis with h | h | ⟨-, h⟩
    · exact absurd h (by decide)
    · exact absurd h (by decide)
    · exact hOther h
  · intro msg
    rw [hrunU]
    rcases s.UpdateShortcut st2 (APIV2Service.buildUpdate rs mask.Paths) with ⟨rup, st3⟩
    cases rup with
    | error err => simp
    | ok updated => cases hcv : convertShortcutFromStorepb updated <;> simp [hcv]
  · intro msg
    rw [hrunD]
    rcases s.DeleteShortcut st2 { ID := S.Id } with ⟨rd, st3⟩
    cases rd <;> simp
  · intro getUser ctx request
    rfl
  · intro getUser ctx request
    rfl

/-- Witness of C20 on the reference store: the admin, user 1, and the private
shortcut go of user 7. -/
theorem admin_read_write_asymmetry_witness :
    APIV2Service.GetShortcut memStore Sample.state { userID := some 1 } { Name := "go" } =
      (Result.status codes.PermissionDenied "Permission denied", Sample.state) ∧
    (∀ request resp st3,
      APIV2Service.ListShortcuts memStore Sample.state { userID := some 1 } request =
        (Result.ok resp, st3) →
      ¬ ∃ w, convertShortcutFromStorepb Sample.goShortcut = some w ∧ w ∈ resp.Shortcuts) ∧
    APIV2Service.DeleteShortcut memStore Sample.state { userID := some 1 } { Name := "go" } =
      (Result.ok {}, { Sample.state with shortcuts := [Sample.wikiShortcut] }) :=
  have h := admin_read_write_asymmetry memStore MemStore.shortcuts
    (fun st _ => ⟨st, rfl, rfl⟩) Sample.state Sample.state Sample.state Sample.state 1
    { ID := 1, Role := store.RoleAdmin } Sample.goShortcut Sample.goTitlePatch
    { Paths := ["title"] } (by decide) rfl rfl (by decide) rfl rfl rfl
  ⟨h.1, h.2.1, h.2.2.2.2.1.trans rfl⟩
